import Mathlib

/-
Verification development for the nrfx GPIOTE driver
(src/nrfx/drivers/src/nrfx_gpiote.c).

The driver is shallowly embedded: the control block (struct
gpiote_control_block_t) becomes the structure CB, the hardware and
observable side effects (GPIO sense configuration, pin input levels,
the per-pin LATCH register, handler invocations, GPIOTE channel backend
calls) become fields of the structure Sys.  Machine integers are Nat;
the 16-bit pin flag words are manipulated with the same bit-field
layout as the C code (see the comment block at nrfx_gpiote.c:71-84),
with bit operations written as exact div/mod arithmetic so that the
field algebra is visible.  Fallible C functions returning nrfx_err_t
become functions returning NrfxErr paired with the updated state.

All pins live in one linear index space (the FULL_PORTS_PRESENT build,
nrfx_gpiote.c:189-217, where get_pin_idx is the identity) and the
GPIO_COUNT port words of the interrupt loops are collapsed into a
single unbounded Nat bitmap, bit p corresponding to absolute pin p.
The build modelled is the one without NRF_GPIO_LATCH_PRESENT for the
configuration engine (it carries the port_pins software-sense set,
a strict superset of the latch-capable state), while both variants of
port_event_handle are modelled for the event-resolution claims.
-/

set_option maxHeartbeats 1000000

namespace Gpiote

/-! ## Enumerations

Trigger values of nrfx_gpiote_trigger_t.  The numeric values are fixed
by the static asserts at nrfx_gpiote.c:67-69 (LOTOHI/HITOLO/TOGGLE must
equal the GPIOTE polarity values 1/2/3) and by the comparisons
`trigger <= NRFX_GPIOTE_TRIGGER_TOGGLE` (line 496) and
`trigger >= NRFX_GPIOTE_TRIGGER_LOW` (line 309) which require the
declaration order NONE, LOTOHI, HITOLO, TOGGLE, LOW, HIGH of the header.
-/

def NRFX_GPIOTE_TRIGGER_NONE : Nat := 0
def NRFX_GPIOTE_TRIGGER_LOTOHI : Nat := 1
def NRFX_GPIOTE_TRIGGER_HITOLO : Nat := 2
def NRFX_GPIOTE_TRIGGER_TOGGLE : Nat := 3
def NRFX_GPIOTE_TRIGGER_LOW : Nat := 4
def NRFX_GPIOTE_TRIGGER_HIGH : Nat := 5

/-- Modelled from the spec: the sense states of the pin configuration
backend (glossary: watch-for-high, watch-for-low, none).  The concrete
values come from the nrf_gpio hal header, which is not under src/;
only equality of these values is ever used by the driver logic. -/
def NRF_GPIO_PIN_NOSENSE : Nat := 0
def NRF_GPIO_PIN_SENSE_HIGH : Nat := 2
def NRF_GPIO_PIN_SENSE_LOW : Nat := 3

/-- Modelled from the spec: input-buffer connection values of the pin
configuration backend (nrf_gpio_pin_input_t); only equality is used. -/
def NRF_GPIO_PIN_INPUT_CONNECT : Nat := 0
def NRF_GPIO_PIN_INPUT_DISCONNECT : Nat := 1

/-- Modelled from the spec: the no-polarity value of
nrf_gpiote_polarity_t used by output task configuration; only the
comparison against it is used (nrfx_gpiote.c:588). -/
def NRF_GPIOTE_POLARITY_NONE : Nat := 0

/-- Error taxonomy of nrfx_err_t as used by this driver (spec section 7). -/
inductive NrfxErr where
  | success
  | invalidParam
  | invalidState
  | noMem
  | invalidIndex
deriving DecidableEq

/-! ## Bitmap helpers

The interrupt-time loops of the driver manipulate uint32 bitmaps with
masks built by NRFX_BIT.  Bit p of a Nat bitmap corresponds to pin p.
-/

/-- C macro NRFX_BIT(n). -/
def NRFX_BIT (n : Nat) : Nat := 2 ^ n

/-- Clearing bit i of a bitmap (nrf_bitmask_bit_clear and
nrfy_gpio_pin_latch_clear reduce to this on the collapsed bitmap):
remove the contribution of bit i by xoring it out. -/
def clearBit (n i : Nat) : Nat := n ^^^ (n &&& 2 ^ i)

/-- Setting bit i of a bitmap (nrf_bitmask_bit_set). -/
def setBit (n i : Nat) : Nat := n ||| 2 ^ i

theorem testBit_clearBit (n i j : Nat) :
    (clearBit n i).testBit j = (n.testBit j && !(j == i)) := by
  simp only [clearBit, Nat.testBit_xor, Nat.testBit_and, Nat.testBit_two_pow]
  by_cases hij : i = j
  · subst hij
    cases n.testBit i <;> simp
  · have h1 : decide (i = j) = false := by simp [hij]
    have h2 : (j == i) = false := by simp [Ne.symm hij]
    rw [h1, h2]
    cases n.testBit j <;> rfl

theorem testBit_setBit (n i j : Nat) :
    (setBit n i).testBit j = (n.testBit j || (j == i)) := by
  simp only [setBit, Nat.testBit_or, Nat.testBit_two_pow]
  by_cases hij : i = j
  · subst hij
    cases n.testBit i <;> simp
  · have h1 : decide (i = j) = false := by simp [hij]
    have h2 : (j == i) = false := by simp [Ne.symm hij]
    rw [h1, h2]

/-- Ascending list of the set bit positions of a bitmap (computed with
structural fuel so that it evaluates by reduction).  The driver drains
such bitmaps with NRF_CTZ loops that repeatedly take and clear the
lowest set bit (nrfx_gpiote.c:1004-1014, 1080-1086); since those loops
never add bits to the word being drained, draining it equals iterating
over this list. -/
def natBitsAux : Nat → Nat → List Nat
  | 0, _ => []
  | fuel + 1, n =>
    if n = 0 then []
    else (if n % 2 = 1 then [0] else []) ++ (natBitsAux fuel (n / 2)).map (· + 1)

def natBits (n : Nat) : List Nat := natBitsAux n n

theorem mem_natBitsAux : ∀ fuel n, n ≤ fuel →
    ∀ p, p ∈ natBitsAux fuel n ↔ n.testBit p := by
  intro fuel
  induction fuel with
  | zero =>
    intro n hn p
    have h0 : n = 0 := by omega
    subst h0
    simp [natBitsAux]
  | succ fuel ih =>
    intro n hn p
    unfold natBitsAux
    by_cases h0 : n = 0
    · subst h0
      simp
    · rw [if_neg h0]
      have hhalf : n / 2 ≤ fuel := by omega
      match p with
      | 0 =>
        simp only [List.mem_append, List.mem_map, Nat.testBit_zero]
        constructor
        · rintro (h | ⟨a, _, ha⟩)
          · by_cases hm : n % 2 = 1
            · simp [hm]
            · simp [hm] at h
          · omega
        · intro h
          left
          have hm : n % 2 = 1 := by simpa using h
          simp [hm]
      | q + 1 =>
        simp only [List.mem_append, List.mem_map, Nat.testBit_add_one]
        rw [← ih (n / 2) hhalf q]
        constructor
        · rintro (h | ⟨a, ha, hq⟩)
          · by_cases hm : n % 2 = 1
            · simp [hm] at h
            · simp [hm] at h
          · have haq : a = q := by omega
            subst haq
            exact ha
        · intro h
          right
          exact ⟨q, h, rfl⟩

theorem mem_natBits (n : Nat) : ∀ p, p ∈ natBits n ↔ n.testBit p :=
  mem_natBitsAux n n (Nat.le_refl n)

/-- Lowest set bit of a nonzero mask (structural fuel recursion); used
to model the ascending first-free scan of the flag32 allocator and the
NRF_CTZ macro. -/
def lowestSetBitAux : Nat → Nat → Nat
  | 0, _ => 0
  | fuel + 1, n => if n % 2 = 1 then 0 else lowestSetBitAux fuel (n / 2) + 1

def lowestSetBit (n : Nat) : Nat := lowestSetBitAux n n

theorem testBit_lowestSetBitAux : ∀ fuel n, n ≠ 0 → n ≤ fuel →
    n.testBit (lowestSetBitAux fuel n) = true := by
  intro fuel
  induction fuel with
  | zero =>
    intro n h0 hn
    omega
  | succ fuel ih =>
    intro n h0 hn
    unfold lowestSetBitAux
    by_cases hm : n % 2 = 1
    · simp [hm]
    · have h2 : n / 2 ≠ 0 := by omega
      have hle : n / 2 ≤ fuel := by omega
      simp only [hm, if_false, Nat.testBit_add_one]
      exact ih (n / 2) h2 hle

theorem testBit_lowestSetBit (n : Nat) (h : n ≠ 0) :
    n.testBit (lowestSetBit n) = true :=
  testBit_lowestSetBitAux n n h (Nat.le_refl n)

/-! ## Data model

gpiote_control_block_t (nrfx_gpiote.c:154-180).  Handler callbacks are
function pointers; they are modelled as Nat identity keys with 0
standing for NULL, and the opaque p_context likewise as a Nat.
pin_flags is the table of 16-bit per-pin state words; its length is
MAX_PIN_NUMBER and get_pin_idx is the identity (FULL_PORTS_PRESENT
build, nrfx_gpiote.c:191-193).  available_channels_mask is not
modelled: no claim touches the dedicated-channel allocator.
-/

structure HandlerSlot where
  handler : Nat
  p_context : Nat
deriving DecidableEq

structure CB where
  handlers : List HandlerSlot
  global_handler : HandlerSlot
  pin_flags : List Nat
  available_evt_handlers : Nat
  port_pins : Nat
deriving DecidableEq

/-- Backend calls made by the driver (nrfy_gpiote / nrfy_gpio wrappers),
kept as an observable log.  gpio_reconfigure abstracts the direction,
pull, drive and input-connect write of nrfy_gpio_reconfigure. -/
inductive BackendOp where
  | te_default (ch : Nat)
  | event_disable (ch : Nat)
  | event_configure (ch : Nat) (pin : Nat) (polarity : Nat)
  | event_clear (ch : Nat)
  | event_enable (ch : Nat)
  | int_enable (mask : Nat)
  | int_disable (mask : Nat)
  | task_configure (ch : Nat) (pin : Nat) (polarity : Nat) (init_val : Nat)
  | gpio_reconfigure (pin : Nat)
  | cfg_default (pin : Nat)
  | sense_set (pin : Nat) (sense : Nat)
deriving DecidableEq

/-- One user-callback invocation performed by call_handler. -/
structure HCall where
  callback : Nat
  pin : Nat
  trigger : Nat
  context : Nat
deriving DecidableEq

/-- Whole system state: the driver control block plus the observable
hardware world.  level is the live input-level bitmap, sense the live
per-pin sense configuration, latch the per-pin LATCH register of the
latch-capable hardware.  calls logs user-callback invocations,
dispatches logs each entry into call_handler (pin, trigger),
portProcessed logs the pins handled by the port-event loops, and ops
logs backend calls. -/
structure Sys where
  cb : CB
  sense : Nat → Nat
  level : Nat
  latch : Nat
  calls : List HCall
  dispatches : List (Nat × Nat)
  portProcessed : List Nat
  ops : List BackendOp

/-- Handler side effects: when call_handler runs the user callbacks for
a pin, the user code may change pin levels (injectLevel is a xor mask
applied to the live levels) and fresh transitions may be captured in
the LATCH register (injectLatch is an or mask).  The all-zero
environment models callbacks without hardware effect. -/
structure HandlerEnv where
  injectLevel : Nat → Nat
  injectLatch : Nat → Nat

/-! ## Pin flag word field algebra

Layout (nrfx_gpiote.c:71-152): bit 0 in_use, bit 1 direction (1 = out),
bits 2-4 trigger mode, bit 5 te_used, bit 6 skip_config, bit 8 handler
present, bits 9-12 handler index, bits 13-15 TE channel index.
Field reads and updates are written as div/mod arithmetic on the flag
word, which agrees with the C mask-and-shift forms on these layouts.
-/

/-- C macro PIN_FLAG_TRIG_MODE_GET(flags): (flags and 28) shifted right by 2. -/
def PIN_FLAG_TRIG_MODE_GET (f : Nat) : Nat := f / 4 % 8

/-- C macro PIN_GET_HANDLER_ID(flags): -1 (here none) when bit 8 is
clear, else bits 9-12. -/
def PIN_GET_HANDLER_ID (f : Nat) : Option Nat :=
  if f / 256 % 2 = 1 then some (f / 512 % 16) else none

/-- C macro PIN_GET_TE_ID(flags): bits 13-15. -/
def PIN_GET_TE_ID (f : Nat) : Nat := f / 8192 % 8

/-- Flag word of a pin (m_cb.pin_flags[get_pin_idx(pin)]). -/
def pinFlags (cb : CB) (pin : Nat) : Nat := cb.pin_flags.getD pin 0

/-- Write the flag word of a pin. -/
def setPinFlags (s : Sys) (pin f : Nat) : Sys :=
  { s with cb := { s.cb with pin_flags := s.cb.pin_flags.set pin f } }

/-- nrfx_gpiote.c:225-228. -/
def pin_in_use (cb : CB) (pin : Nat) : Bool := pinFlags cb pin % 2 = 1

/-- nrfx_gpiote.c:238-241. -/
def pin_in_use_by_te (cb : CB) (pin : Nat) : Bool := pinFlags cb pin / 32 % 2 = 1

/-- nrfx_gpiote.c:249-252. -/
def pin_has_trigger (cb : CB) (pin : Nat) : Bool :=
  PIN_FLAG_TRIG_MODE_GET (pinFlags cb pin) ≠ NRFX_GPIOTE_TRIGGER_NONE

/-- nrfx_gpiote.c:262-265 (PIN_FLAG_IS_OUTPUT). -/
def pin_is_output (cb : CB) (pin : Nat) : Bool := pinFlags cb pin / 2 % 2 = 1

/-- nrfx_gpiote.c:273-276. -/
def pin_is_task_output (cb : CB) (pin : Nat) : Bool :=
  pin_is_output cb pin && pin_in_use_by_te cb pin

/-- nrfx_gpiote.c:284-287. -/
def pin_is_input (cb : CB) (pin : Nat) : Bool := !pin_is_output cb pin

/-- nrfx_gpiote.c:302-305. -/
def pin_te_get (cb : CB) (pin : Nat) : Nat := PIN_GET_TE_ID (pinFlags cb pin)

/-- nrfx_gpiote.c:307-310. -/
def is_level (trigger : Nat) : Bool := trigger ≥ NRFX_GPIOTE_TRIGGER_LOW

/-! ## Slot allocator (helpers/nrfx_flag32_allocator)

The allocator itself is not under src/ (only its callers are). -/

/-- Modelled from the spec: nrfx_flag32_alloc (spec sections 3 and 4.1).
The mask has one bit per slot, set = free; allocation returns the first
free ascending index and clears its bit, or fails (Exhausted / NO_MEM)
when no bit is set.  Returns (index, updated mask). -/
def nrfx_flag32_alloc (mask : Nat) : Option (Nat × Nat) :=
  if mask = 0 then none
  else some (lowestSetBit mask, clearBit mask (lowestSetBit mask))

/-- Modelled from the spec: nrfx_flag32_free (spec section 4.1).  Fails
with InvalidIndex when the index is outside the 32-bit pool or the slot
is already free; the mask is updated only on success. -/
def nrfx_flag32_free (mask idx : Nat) : Option Nat :=
  if idx ≥ 32 ∨ mask.testBit idx then none else some (setBit mask idx)

/-! ## Handler registry -/

/-- nrfx_gpiote.c:312-322: scan every pin record for a reference to the
given handler slot. -/
def handler_in_use (cb : CB) (handler_id : Nat) : Bool :=
  cb.pin_flags.any (fun f => PIN_GET_HANDLER_ID f == some handler_id)

/-- nrfx_gpiote.c:326-348: clear the pin handler field; release the
slot only if no pin references it any more (the C ignores the error of
nrfx_flag32_free after an assert, so a failed free leaves the mask
unchanged).  Clearing the handler field, bits 8-12, is
`flags &= ~PIN_HANDLER_MASK` written arithmetically. -/
def release_handler (s : Sys) (pin : Nat) : Sys :=
  let f := pinFlags s.cb pin
  match PIN_GET_HANDLER_ID f with
  | none => s
  | some handler_id =>
    let s1 := setPinFlags s pin (f - 256 * (f / 256 % 32))
    if handler_in_use s1.cb handler_id then s1
    else
      let old := s1.cb.handlers.getD handler_id ⟨0, 0⟩
      let handlers1 := s1.cb.handlers.set handler_id ⟨0, old.p_context⟩
      let mask1 :=
        match nrfx_flag32_free s1.cb.available_evt_handlers handler_id with
        | some m => m
        | none => s1.cb.available_evt_handlers
      { s1 with cb := { s1.cb with handlers := handlers1,
                                   available_evt_handlers := mask1 } }

/-- nrfx_gpiote.c:385-396: index of the first slot holding exactly this
(callback, context) pair. -/
def find_handler (h c : Nat) : List HandlerSlot → Option Nat
  | [] => none
  | slot :: rest =>
    if slot.handler = h ∧ slot.p_context = c then some 0
    else (find_handler h c rest).map (· + 1)

/-- nrfx_gpiote.c:399-431: release the previous binding, then either
reuse the slot already holding the identical pair or allocate a new
slot; store the pair and encode the slot index into the pin flags.
PIN_FLAG_HANDLER(id) is or-ed into a word whose handler field (bits
8-12) release_handler has just left all-zero, so the or is addition. -/
def pin_handler_set (s0 : Sys) (pin h c : Nat) : NrfxErr × Sys :=
  let s := release_handler s0 pin
  if h = 0 then (.success, s)
  else
    let allocated : Option (Nat × Sys) :=
      match find_handler h c s.cb.handlers with
      | some id => some (id, s)
      | none =>
        match nrfx_flag32_alloc s.cb.available_evt_handlers with
        | none => none
        | some (id, mask1) =>
          some (id, { s with cb := { s.cb with available_evt_handlers := mask1 } })
    match allocated with
    | none => (.noMem, s)
    | some (id, s1) =>
      let s2 := { s1 with cb := { s1.cb with handlers := s1.cb.handlers.set id ⟨h, c⟩ } }
      let f := pinFlags s2.cb pin
      (.success, setPinFlags s2 pin (f + 256 + 512 * id))

/-! ## Hardware access helpers -/

/-- nrfy_gpio_cfg_sense_set: write the live sense configuration of a
pin and log the call. -/
def nrfy_gpio_cfg_sense_set (s : Sys) (pin sense : Nat) : Sys :=
  { s with sense := fun q => if q = pin then sense else s.sense q,
           ops := s.ops ++ [.sense_set pin sense] }

/-- nrfy_gpio_pin_read on the live level bitmap. -/
def nrfy_gpio_pin_read (s : Sys) (pin : Nat) : Bool := s.level.testBit pin

/-! ## Configuration engine -/

/-- nrfx_gpiote.c:433-453: initial sense for trigger_enable; level
triggers watch their level directly, edge triggers start watching the
opposite of the current pin level. -/
def get_initial_sense (s : Sys) (pin : Nat) : Nat :=
  let trigger := PIN_FLAG_TRIG_MODE_GET (pinFlags s.cb pin)
  if trigger = NRFX_GPIOTE_TRIGGER_LOW then NRF_GPIO_PIN_SENSE_LOW
  else if trigger = NRFX_GPIOTE_TRIGGER_HIGH then NRF_GPIO_PIN_SENSE_HIGH
  else if nrfy_gpio_pin_read s pin then NRF_GPIO_PIN_SENSE_LOW
  else NRF_GPIO_PIN_SENSE_HIGH

/-- Input options (nrfx_gpiote_input_config_t): only the pull value,
which the core forwards to the backend unchanged. -/
structure InputCfg where
  pull : Nat

/-- Trigger options (nrfx_gpiote_trigger_config_t): trigger kind and
optional pointer to a dedicated input event channel. -/
structure TriggerCfg where
  trigger : Nat
  p_in_channel : Option Nat

/-- Handler options (nrfx_gpiote_handler_config_t). -/
structure HandlerCfg where
  handler : Nat
  p_context : Nat

/-- Output options (nrfx_gpiote_output_config_t): only input_connect
matters to the core logic. -/
structure OutputCfg where
  input_connect : Nat

/-- Task options (nrfx_gpiote_task_config_t). -/
structure TaskCfg where
  task_ch : Nat
  polarity : Nat
  init_val : Nat

/-- The p_input_config block of nrfx_gpiote_input_configure
(nrfx_gpiote.c:463-477).  error carries the state at an early
INVALID_PARAM return. -/
def input_stage (s : Sys) (pin : Nat) : Option InputCfg → Except Sys Sys
  | none => .ok s
  | some _ =>
    if pin_is_task_output s.cb pin then .error s
    else
      let s1 := { s with ops := s.ops ++ [.gpio_reconfigure pin] }
      let f := pinFlags s1.cb pin
      let f1 := f - 2 * (f / 2 % 2)
      let f2 := f1 - f1 % 2 + 1
      .ok (setPinFlags s1 pin f2)

/-- nrfx_gpiote.c:522-533: record the pin into (or remove it from) the
software-sense port_pins set (the build without NRF_GPIO_LATCH_PRESENT)
and store the trigger mode field.  PIN_FLAG_TRIG_MODE_SET shifts the
trigger into a field this code has just cleared, so the or is addition
for the in-range trigger values (NRFX_GPIOTE_TRIGGER_MAX <= 8,
nrfx_gpiote.c:105). -/
def port_pins_and_trigger_store (s : Sys) (pin trigger : Nat) (use_evt : Bool) : Sys :=
  let s1 :=
    if use_evt || trigger = NRFX_GPIOTE_TRIGGER_NONE then
      { s with cb := { s.cb with port_pins := clearBit s.cb.port_pins pin } }
    else
      { s with cb := { s.cb with port_pins := setBit s.cb.port_pins pin } }
  let f := pinFlags s1.cb pin
  setPinFlags s1 pin (f - 4 * (f / 4 % 8) + 4 * trigger)

/-- The p_trigger_config block of nrfx_gpiote_input_configure
(nrfx_gpiote.c:479-534).  For input pins the TE binding field (bits 5
and 13-15) is first cleared; PIN_FLAG_TE_ID ors the new channel into
that just-cleared field, so the or is addition. -/
def trigger_stage (s : Sys) (pin : Nat) : Option TriggerCfg → Except Sys Sys
  | none => .ok s
  | some cfg =>
    let trigger := cfg.trigger
    let use_evt := cfg.p_in_channel.isSome
    if pin_is_output s.cb pin then
      if use_evt then .error s
      else .ok (port_pins_and_trigger_store s pin trigger use_evt)
    else
      let f := pinFlags s.cb pin
      let s1 := setPinFlags s pin (f - 32 * (f / 32 % 2) - 8192 * (f / 8192 % 8))
      if use_evt then
        if !(trigger ≤ NRFX_GPIOTE_TRIGGER_TOGGLE) then .error s1
        else
          let ch := cfg.p_in_channel.getD 0
          if trigger = NRFX_GPIOTE_TRIGGER_NONE then
            .ok (port_pins_and_trigger_store
                  { s1 with ops := s1.ops ++ [.te_default ch] } pin trigger use_evt)
          else
            let s2 := { s1 with ops := s1.ops ++
                          [.event_disable ch, .event_configure ch pin trigger] }
            let f2 := pinFlags s2.cb pin
            let s3 := setPinFlags s2 pin (f2 + 32 + 8192 * (ch % 8))
            .ok (port_pins_and_trigger_store s3 pin trigger use_evt)
      else .ok (port_pins_and_trigger_store s1 pin trigger use_evt)

/-- nrfx_gpiote_input_configure (nrfx_gpiote.c:455-546). -/
def nrfx_gpiote_input_configure (s : Sys) (pin : Nat)
    (p_input_config : Option InputCfg) (p_trigger_config : Option TriggerCfg)
    (p_handler_config : Option HandlerCfg) : NrfxErr × Sys :=
  match input_stage s pin p_input_config with
  | .error s1 => (.invalidParam, s1)
  | .ok s1 =>
    match trigger_stage s1 pin p_trigger_config with
    | .error s2 => (.invalidParam, s2)
    | .ok s2 =>
      match p_handler_config with
      | some hc => pin_handler_set s2 pin hc.handler hc.p_context
      | none => (.success, s2)

/-- The p_task_config block of nrfx_gpiote_output_configure
(nrfx_gpiote.c:577-595). -/
def output_task_stage (s : Sys) (pin : Nat) : Option TaskCfg → NrfxErr × Sys
  | none => (.success, s)
  | some tc =>
    if pin_is_input s.cb pin then (.invalidParam, s)
    else
      let ch := tc.task_ch
      let s1 := { s with ops := s.ops ++ [.te_default ch] }
      let f := pinFlags s1.cb pin
      let f1 := f - 32 * (f / 32 % 2) - 8192 * (f / 8192 % 8)
      let s2 := setPinFlags s1 pin f1
      if tc.polarity ≠ NRF_GPIOTE_POLARITY_NONE then
        let s3 := { s2 with ops := s2.ops ++
                      [.task_configure ch pin tc.polarity tc.init_val] }
        (.success, setPinFlags s3 pin (f1 + 32 + 8192 * (ch % 8)))
      else (.success, s2)

/-- nrfx_gpiote_output_configure (nrfx_gpiote.c:548-598). -/
def nrfx_gpiote_output_configure (s : Sys) (pin : Nat)
    (p_config : Option OutputCfg) (p_task_config : Option TaskCfg) : NrfxErr × Sys :=
  match p_config with
  | some cfg =>
    if pin_is_input s.cb pin && pin_in_use_by_te s.cb pin then (.invalidParam, s)
    else if pin_has_trigger s.cb pin &&
            (cfg.input_connect = NRF_GPIO_PIN_INPUT_DISCONNECT : Bool) then
      (.invalidParam, s)
    else
      let s1 := { s with ops := s.ops ++ [.gpio_reconfigure pin] }
      let f := pinFlags s1.cb pin
      let s2 := setPinFlags s1 pin (f - f % 4 + 3)
      output_task_stage s2 pin p_task_config
  | none => output_task_stage s pin p_task_config

/-- nrfx_gpiote_global_callback_set (nrfx_gpiote.c:600-604). -/
def nrfx_gpiote_global_callback_set (s : Sys) (h c : Nat) : Sys :=
  { s with cb := { s.cb with global_handler := ⟨h, c⟩ } }

/-- nrfx_gpiote_channel_get (nrfx_gpiote.c:606-619). -/
def nrfx_gpiote_channel_get (s : Sys) (pin : Nat) : NrfxErr × Option Nat :=
  if pin_in_use_by_te s.cb pin then (.success, some (pin_te_get s.cb pin))
  else (.invalidParam, none)

/-- nrfx_gpiote_trigger_disable (nrfx_gpiote.c:883-896). -/
def nrfx_gpiote_trigger_disable (s : Sys) (pin : Nat) : Sys :=
  if pin_in_use_by_te s.cb pin && pin_is_input s.cb pin then
    let ch := pin_te_get s.cb pin
    { s with ops := s.ops ++ [.int_disable (NRFX_BIT ch), .event_disable ch] }
  else nrfy_gpio_cfg_sense_set s pin NRF_GPIO_PIN_NOSENSE

/-- nrfx_gpiote_trigger_enable (nrfx_gpiote.c:861-881). -/
def nrfx_gpiote_trigger_enable (s : Sys) (pin : Nat) (int_enable : Bool) : Sys :=
  if pin_in_use_by_te s.cb pin && pin_is_input s.cb pin then
    let ch := pin_te_get s.cb pin
    let s1 := { s with ops := s.ops ++ [.event_clear ch, .event_enable ch] }
    if int_enable then { s1 with ops := s1.ops ++ [.int_enable (NRFX_BIT ch)] }
    else s1
  else nrfy_gpio_cfg_sense_set s pin (get_initial_sense s pin)

/-- pin_handler_trigger_uninit (nrfx_gpiote.c:353-369): reset the bound
TE channel (or drop the pin from the software-sense set), release the
handler slot, and zero the pin record (PIN_FLAG_NOT_USED). -/
def pin_handler_trigger_uninit (s : Sys) (pin : Nat) : Sys :=
  let s1 :=
    if pin_in_use_by_te s.cb pin then
      { s with ops := s.ops ++ [.te_default (pin_te_get s.cb pin)] }
    else
      { s with cb := { s.cb with port_pins := clearBit s.cb.port_pins pin } }
  let s2 := release_handler s1 pin
  setPinFlags s2 pin 0

/-- nrfx_gpiote_pin_uninit (nrfx_gpiote.c:371-383). -/
def nrfx_gpiote_pin_uninit (s : Sys) (pin : Nat) : NrfxErr × Sys :=
  if !pin_in_use s.cb pin then (.invalidParam, s)
  else
    let s1 := nrfx_gpiote_trigger_disable s pin
    let s2 := pin_handler_trigger_uninit s1 pin
    (.success, { s2 with ops := s2.ops ++ [.cfg_default pin] })

/-! ## Event resolution engine -/

/-- channel_handler_get (nrfx_gpiote.c:622-632). -/
def channel_handler_get (cb : CB) (pin : Nat) : Option HandlerSlot :=
  match PIN_GET_HANDLER_ID (pinFlags cb pin) with
  | none => none
  | some handler_id => some (cb.handlers.getD handler_id ⟨0, 0⟩)

/-- call_handler (nrfx_gpiote.c:926-938): invoke the per-pin handler if
one is bound, then the global handler if set, with identical (pin,
trigger) arguments and each with its own context.  The entry itself is
logged in dispatches; the hardware effects of the user callbacks are
taken from the environment. -/
def call_handler (env : HandlerEnv) (s : Sys) (pin trigger : Nat) : Sys :=
  let s0 := { s with dispatches := s.dispatches ++ [(pin, trigger)] }
  let s1 :=
    match channel_handler_get s0.cb pin with
    | some slot =>
      { s0 with calls := s0.calls ++ [HCall.mk slot.handler pin trigger slot.p_context] }
    | none => s0
  let s2 :=
    if s1.cb.global_handler.handler ≠ 0 then
      { s1 with calls := s1.calls ++
          [HCall.mk s1.cb.global_handler.handler pin trigger
             s1.cb.global_handler.p_context] }
    else s1
  { s2 with level := s2.level ^^^ env.injectLevel pin,
            latch := s2.latch ||| env.injectLatch pin }

/-- next_sense_cond_call_handler (nrfx_gpiote.c:940-975). -/
def next_sense_cond_call_handler (env : HandlerEnv) (s : Sys)
    (pin trigger sense : Nat) : Sys :=
  if is_level trigger then
    let s1 := call_handler env s pin trigger
    if s1.sense pin = sense then
      nrfy_gpio_cfg_sense_set
        (nrfy_gpio_cfg_sense_set s1 pin NRF_GPIO_PIN_NOSENSE) pin sense
    else s1
  else
    let next_sense :=
      if sense = NRF_GPIO_PIN_SENSE_HIGH then NRF_GPIO_PIN_SENSE_LOW
      else NRF_GPIO_PIN_SENSE_HIGH
    let s1 := nrfy_gpio_cfg_sense_set s pin next_sense
    if trigger = NRFX_GPIOTE_TRIGGER_TOGGLE ∨
       (sense = NRF_GPIO_PIN_SENSE_HIGH ∧ trigger = NRFX_GPIOTE_TRIGGER_LOTOHI) ∨
       (sense = NRF_GPIO_PIN_SENSE_LOW ∧ trigger = NRFX_GPIOTE_TRIGGER_HITOLO) then
      call_handler env s1 pin trigger
    else s1

/-! ### port_event_handle, latch-capable build (nrfx_gpiote.c:977-1030) -/

/-- Body of the inner drain loop (nrfx_gpiote.c:1002-1024): for each
latched pin (ascending NRF_CTZ order over the local copy), read its
trigger and live sense, run next_sense_cond_call_handler, then try to
clear the hardware LATCH bit of that pin.  Each handled pin is recorded
in portProcessed. -/
def latch_pins_process (env : HandlerEnv) : List Nat → Sys → Sys
  | [], s => s
  | pin :: rest, s =>
    let trigger := PIN_FLAG_TRIG_MODE_GET (pinFlags s.cb pin)
    let sense := s.sense pin
    let s1 := next_sense_cond_call_handler env
                { s with portProcessed := s.portProcessed ++ [pin] } pin trigger sense
    let s2 := { s1 with latch := clearBit s1.latch pin }
    latch_pins_process env rest s2

/-- The do-while loop of the latch-capable port_event_handle
(nrfx_gpiote.c:1001-1029): process one full pass over the local latch
copy, then read-and-clear the hardware latch again
(latch_pending_read_and_check, lines 978-993) and repeat while any bit
is pending.  Fuel bounds the number of passes; the driver loop is
unbounded by design (spec section 5), so running out of fuel yields
none. -/
def port_loop_latch (env : HandlerEnv) : Nat → Nat → Sys → Option Sys
  | 0, _, _ => none
  | fuel + 1, latchLocal, s =>
    let s1 := latch_pins_process env (natBits latchLocal) s
    if s1.latch = 0 then some s1
    else port_loop_latch env fuel s1.latch { s1 with latch := 0 }

/-- port_event_handle, latch-capable build (nrfx_gpiote.c:995-1030):
the initial nrfy_gpio_latches_read_and_clear followed by the do-while
loop. -/
def port_event_handle_latch (env : HandlerEnv) (fuel : Nat) (s : Sys) : Option Sys :=
  port_loop_latch env fuel s.latch { s with latch := 0 }

/-! ### port_event_handle, software-emulated build (nrfx_gpiote.c:1032-1139) -/

/-- Sweep body (nrfx_gpiote.c:1078-1101): for every pin still marked to
check (ascending NRF_CTZ order), run next_sense_cond_call_handler only
when the snapshot level of the pin matches its live sense
configuration.  pin_state is read from the snapshot taken before the
sweep, not from the live levels. -/
def sweep_pins (env : HandlerEnv) (input : Nat) : List Nat → Sys → Sys
  | [], s => s
  | pin :: rest, s =>
    let trigger := PIN_FLAG_TRIG_MODE_GET (pinFlags s.cb pin)
    let sense := s.sense pin
    let pin_state := input.testBit pin
    let s1 :=
      if (pin_state && (sense = NRF_GPIO_PIN_SENSE_HIGH : Bool)) ||
         (!pin_state && (sense = NRF_GPIO_PIN_SENSE_LOW : Bool)) then
        next_sense_cond_call_handler env
          { s with portProcessed := s.portProcessed ++ [pin] } pin trigger sense
      else s
    sweep_pins env input rest s1

/-- Snapshot-flip trick (nrfx_gpiote.c:1110-1135): for every armed
software-sense pin with a level trigger, force the comparison snapshot
to the opposite of the trigger level so a persisting level is
re-examined in the next pass. -/
def input_flip_trick : List Nat → Sys → Nat → Nat
  | [], _, input => input
  | pin :: rest, s, input =>
    let input1 :=
      if s.sense pin ≠ NRF_GPIO_PIN_NOSENSE then
        let trigger := PIN_FLAG_TRIG_MODE_GET (pinFlags s.cb pin)
        if trigger = NRFX_GPIOTE_TRIGGER_HIGH then clearBit input pin
        else if trigger = NRFX_GPIOTE_TRIGGER_LOW then setBit input pin
        else input
      else input
    input_flip_trick rest s input1

/-- input_read_and_check (nrfx_gpiote.c:1034-1060) on the collapsed
single bitmap: re-read the live levels, diff against the snapshot,
replace the snapshot by the fresh read; pins whose level changed are
re-marked for checking and another pass is requested, otherwise the
to-check set is emptied.  Returns (process_inputs_again, diff, new
snapshot, new pins_to_check). -/
def input_read_and_check (s : Sys) (input pins_to_check : Nat) :
    Bool × Nat × Nat × Nat :=
  let new_input := s.level
  let input_diff := input ^^^ new_input
  if input_diff ≠ 0 then (true, input_diff, new_input, pins_to_check &&& input_diff)
  else (false, input_diff, new_input, 0)

/-- Result of the software-emulated port_event_handle: final state, the
snapshot that the final re-read was compared against, the final
snapshot, and the final pins_to_check set. -/
structure NLResult where
  sys : Sys
  preSnapshot : Nat
  postSnapshot : Nat
  pinsToCheck : Nat

/-- The do-while loop of the software-emulated port_event_handle
(nrfx_gpiote.c:1077-1138): sweep, reload pins_to_check from the
software-sense set, apply the snapshot-flip trick, then re-read and
compare; repeat while anything changed. -/
def port_loop_nl (env : HandlerEnv) : Nat → Sys → Nat → Nat → Option NLResult
  | 0, _, _, _ => none
  | fuel + 1, s, input, pins_to_check =>
    let s1 := sweep_pins env input (natBits pins_to_check) s
    let ptc1 := s1.cb.port_pins
    let input1 := input_flip_trick (natBits ptc1) s1 input
    let t := input_read_and_check s1 input1 ptc1
    if t.1 then port_loop_nl env fuel s1 t.2.2.1 t.2.2.2
    else some ⟨s1, input1, t.2.2.1, t.2.2.2⟩

/-- port_event_handle, software-emulated build (nrfx_gpiote.c:1062-1139):
snapshot the live levels, start from the software-sense pin set, run
the re-scan loop. -/
def port_event_handle_nl (env : HandlerEnv) (fuel : Nat) (s : Sys) : Option NLResult :=
  port_loop_nl env fuel s s.level s.cb.port_pins

/-! ## Characterization of the dispatch core -/

theorem sense_set_cb (s : Sys) (pin v : Nat) :
    (nrfy_gpio_cfg_sense_set s pin v).cb = s.cb := rfl

theorem sense_set_latch (s : Sys) (pin v : Nat) :
    (nrfy_gpio_cfg_sense_set s pin v).latch = s.latch := rfl

theorem sense_set_dispatches (s : Sys) (pin v : Nat) :
    (nrfy_gpio_cfg_sense_set s pin v).dispatches = s.dispatches := rfl

theorem sense_set_portProcessed (s : Sys) (pin v : Nat) :
    (nrfy_gpio_cfg_sense_set s pin v).portProcessed = s.portProcessed := rfl

theorem sense_set_sense_self (s : Sys) (pin v : Nat) :
    (nrfy_gpio_cfg_sense_set s pin v).sense pin = v := by
  simp [nrfy_gpio_cfg_sense_set]

theorem call_handler_cb (env : HandlerEnv) (s : Sys) (pin t : Nat) :
    (call_handler env s pin t).cb = s.cb := by
  cases hcg : channel_handler_get s.cb pin <;>
    by_cases hg : s.cb.global_handler.handler = 0 <;>
    simp [call_handler, hcg, hg]

theorem call_handler_sense (env : HandlerEnv) (s : Sys) (pin t : Nat) :
    (call_handler env s pin t).sense = s.sense := by
  cases hcg : channel_handler_get s.cb pin <;>
    by_cases hg : s.cb.global_handler.handler = 0 <;>
    simp [call_handler, hcg, hg]

theorem call_handler_ops (env : HandlerEnv) (s : Sys) (pin t : Nat) :
    (call_handler env s pin t).ops = s.ops := by
  cases hcg : channel_handler_get s.cb pin <;>
    by_cases hg : s.cb.global_handler.handler = 0 <;>
    simp [call_handler, hcg, hg]

theorem call_handler_portProcessed (env : HandlerEnv) (s : Sys) (pin t : Nat) :
    (call_handler env s pin t).portProcessed = s.portProcessed := by
  cases hcg : channel_handler_get s.cb pin <;>
    by_cases hg : s.cb.global_handler.handler = 0 <;>
    simp [call_handler, hcg, hg]

theorem call_handler_dispatches (env : HandlerEnv) (s : Sys) (pin t : Nat) :
    (call_handler env s pin t).dispatches = s.dispatches ++ [(pin, t)] := by
  cases hcg : channel_handler_get s.cb pin <;>
    by_cases hg : s.cb.global_handler.handler = 0 <;>
    simp [call_handler, hcg, hg]

theorem call_handler_latch (env : HandlerEnv) (s : Sys) (pin t : Nat) :
    (call_handler env s pin t).latch = s.latch ||| env.injectLatch pin := by
  cases hcg : channel_handler_get s.cb pin <;>
    by_cases hg : s.cb.global_handler.handler = 0 <;>
    simp [call_handler, hcg, hg]

theorem call_handler_level (env : HandlerEnv) (s : Sys) (pin t : Nat) :
    (call_handler env s pin t).level = s.level ^^^ env.injectLevel pin := by
  cases hcg : channel_handler_get s.cb pin <;>
    by_cases hg : s.cb.global_handler.handler = 0 <;>
    simp [call_handler, hcg, hg]

/-- The callback invocations produced by one call_handler run: the
per-pin handler first (when bound), then the global handler (when set). -/
def handlerCallsFor (cb : CB) (pin trigger : Nat) : List HCall :=
  (match channel_handler_get cb pin with
   | some slot => [HCall.mk slot.handler pin trigger slot.p_context]
   | none => []) ++
  (if cb.global_handler.handler ≠ 0 then
    [HCall.mk cb.global_handler.handler pin trigger cb.global_handler.p_context]
   else [])

theorem call_handler_calls (env : HandlerEnv) (s : Sys) (pin t : Nat) :
    (call_handler env s pin t).calls = s.calls ++ handlerCallsFor s.cb pin t := by
  cases hcg : channel_handler_get s.cb pin <;>
    by_cases hg : s.cb.global_handler.handler = 0 <;>
    simp [call_handler, handlerCallsFor, hcg, hg]

/-- Whether next_sense_cond_call_handler reaches call_handler: always
for level triggers, and exactly on polarity match or toggle for edge
triggers (nrfx_gpiote.c:944, 968-970). -/
def dispatchCond (trigger sense : Nat) : Bool :=
  is_level trigger ||
  decide (trigger = NRFX_GPIOTE_TRIGGER_TOGGLE ∨
    (sense = NRF_GPIO_PIN_SENSE_HIGH ∧ trigger = NRFX_GPIOTE_TRIGGER_LOTOHI) ∨
    (sense = NRF_GPIO_PIN_SENSE_LOW ∧ trigger = NRFX_GPIOTE_TRIGGER_HITOLO))

theorem ns_cb (env : HandlerEnv) (s : Sys) (pin t sn : Nat) :
    (next_sense_cond_call_handler env s pin t sn).cb = s.cb := by
  unfold next_sense_cond_call_handler
  by_cases hl : is_level t
  · by_cases hs : (call_handler env s pin t).sense pin = sn <;>
      simp [hl, hs, sense_set_cb, call_handler_cb]
  · by_cases hd : (t = NRFX_GPIOTE_TRIGGER_TOGGLE ∨
        (sn = NRF_GPIO_PIN_SENSE_HIGH ∧ t = NRFX_GPIOTE_TRIGGER_LOTOHI) ∨
        (sn = NRF_GPIO_PIN_SENSE_LOW ∧ t = NRFX_GPIOTE_TRIGGER_HITOLO)) <;>
      simp [hl, hd, sense_set_cb, call_handler_cb]

theorem ns_portProcessed (env : HandlerEnv) (s : Sys) (pin t sn : Nat) :
    (next_sense_cond_call_handler env s pin t sn).portProcessed = s.portProcessed := by
  unfold next_sense_cond_call_handler
  by_cases hl : is_level t
  · by_cases hs : (call_handler env s pin t).sense pin = sn <;>
      simp [hl, hs, sense_set_portProcessed, call_handler_portProcessed]
  · by_cases hd : (t = NRFX_GPIOTE_TRIGGER_TOGGLE ∨
        (sn = NRF_GPIO_PIN_SENSE_HIGH ∧ t = NRFX_GPIOTE_TRIGGER_LOTOHI) ∨
        (sn = NRF_GPIO_PIN_SENSE_LOW ∧ t = NRFX_GPIOTE_TRIGGER_HITOLO)) <;>
      simp [hl, hd, sense_set_portProcessed, call_handler_portProcessed]

theorem ns_dispatches (env : HandlerEnv) (s : Sys) (pin t sn : Nat) :
    (next_sense_cond_call_handler env s pin t sn).dispatches
      = s.dispatches ++ (if dispatchCond t sn then [(pin, t)] else []) := by
  unfold next_sense_cond_call_handler
  by_cases hl : is_level t
  · have hc : dispatchCond t sn = true := by simp [dispatchCond, hl]
    by_cases hs : (call_handler env s pin t).sense pin = sn <;>
      simp [hl, hs, hc, sense_set_dispatches, call_handler_dispatches]
  · by_cases hd : (t = NRFX_GPIOTE_TRIGGER_TOGGLE ∨
        (sn = NRF_GPIO_PIN_SENSE_HIGH ∧ t = NRFX_GPIOTE_TRIGGER_LOTOHI) ∨
        (sn = NRF_GPIO_PIN_SENSE_LOW ∧ t = NRFX_GPIOTE_TRIGGER_HITOLO))
    · have hc : dispatchCond t sn = true := by simp [dispatchCond, hd]
      simp [hl, hd, hc, sense_set_dispatches, call_handler_dispatches]
    · have hc : dispatchCond t sn = false := by
        simp [dispatchCond, hl, hd]
      simp [hl, hd, hc, sense_set_dispatches]

theorem ns_latch (env : HandlerEnv) (s : Sys) (pin t sn : Nat) :
    (next_sense_cond_call_handler env s pin t sn).latch
      = s.latch ||| (if dispatchCond t sn then env.injectLatch pin else 0) := by
  unfold next_sense_cond_call_handler
  by_cases hl : is_level t
  · have hc : dispatchCond t sn = true := by simp [dispatchCond, hl]
    by_cases hs : (call_handler env s pin t).sense pin = sn <;>
      simp [hl, hs, hc, sense_set_latch, call_handler_latch]
  · by_cases hd : (t = NRFX_GPIOTE_TRIGGER_TOGGLE ∨
        (sn = NRF_GPIO_PIN_SENSE_HIGH ∧ t = NRFX_GPIOTE_TRIGGER_LOTOHI) ∨
        (sn = NRF_GPIO_PIN_SENSE_LOW ∧ t = NRFX_GPIOTE_TRIGGER_HITOLO))
    · have hc : dispatchCond t sn = true := by simp [dispatchCond, hd]
      simp [hl, hd, hc, sense_set_latch, call_handler_latch]
    · have hc : dispatchCond t sn = false := by
        simp [dispatchCond, hl, hd]
      simp [hl, hd, hc, sense_set_latch]

theorem ns_level (env : HandlerEnv) (s : Sys) (pin t sn : Nat) :
    (next_sense_cond_call_handler env s pin t sn).level
      = s.level ^^^ (if dispatchCond t sn then env.injectLevel pin else 0) := by
  unfold next_sense_cond_call_handler
  by_cases hl : is_level t
  · have hc : dispatchCond t sn = true := by simp [dispatchCond, hl]
    by_cases hs : (call_handler env s pin t).sense pin = sn <;>
      simp [hl, hs, hc, call_handler_level, nrfy_gpio_cfg_sense_set]
  · by_cases hd : (t = NRFX_GPIOTE_TRIGGER_TOGGLE ∨
        (sn = NRF_GPIO_PIN_SENSE_HIGH ∧ t = NRFX_GPIOTE_TRIGGER_LOTOHI) ∨
        (sn = NRF_GPIO_PIN_SENSE_LOW ∧ t = NRFX_GPIOTE_TRIGGER_HITOLO))
    · have hc : dispatchCond t sn = true := by simp [dispatchCond, hd]
      simp [hl, hd, hc, call_handler_level, nrfy_gpio_cfg_sense_set]
    · have hc : dispatchCond t sn = false := by
        simp [dispatchCond, hl, hd]
      simp [hl, hd, hc, nrfy_gpio_cfg_sense_set]

theorem ns_ops_level_rearm (env : HandlerEnv) (s : Sys) (pin t sn : Nat)
    (hl : is_level t = true) (hs : s.sense pin = sn) :
    (next_sense_cond_call_handler env s pin t sn).ops
      = s.ops ++ [BackendOp.sense_set pin NRF_GPIO_PIN_NOSENSE,
                  BackendOp.sense_set pin sn] := by
  unfold next_sense_cond_call_handler
  have hcs : (call_handler env s pin t).sense pin = sn := by
    rw [call_handler_sense]; exact hs
  simp [hl, hcs, nrfy_gpio_cfg_sense_set, call_handler_ops]

theorem ns_ops_level_norearm (env : HandlerEnv) (s : Sys) (pin t sn : Nat)
    (hl : is_level t = true) (hs : s.sense pin ≠ sn) :
    (next_sense_cond_call_handler env s pin t sn).ops = s.ops := by
  unfold next_sense_cond_call_handler
  have hcs : ¬ (call_handler env s pin t).sense pin = sn := by
    rw [call_handler_sense]; exact hs
  simp [hl, hcs, call_handler_ops]

theorem ns_sense_level_rearm (env : HandlerEnv) (s : Sys) (pin t sn : Nat)
    (hl : is_level t = true) (hs : s.sense pin = sn) :
    (next_sense_cond_call_handler env s pin t sn).sense pin = sn := by
  unfold next_sense_cond_call_handler
  have hcs : (call_handler env s pin t).sense pin = sn := by
    rw [call_handler_sense]; exact hs
  simp [hl, hcs, nrfy_gpio_cfg_sense_set]

theorem ns_sense_edge_self (env : HandlerEnv) (s : Sys) (pin t sn : Nat)
    (hl : is_level t = false) :
    (next_sense_cond_call_handler env s pin t sn).sense pin
      = (if sn = NRF_GPIO_PIN_SENSE_HIGH then NRF_GPIO_PIN_SENSE_LOW
         else NRF_GPIO_PIN_SENSE_HIGH) := by
  unfold next_sense_cond_call_handler
  by_cases hd : (t = NRFX_GPIOTE_TRIGGER_TOGGLE ∨
      (sn = NRF_GPIO_PIN_SENSE_HIGH ∧ t = NRFX_GPIOTE_TRIGGER_LOTOHI) ∨
      (sn = NRF_GPIO_PIN_SENSE_LOW ∧ t = NRFX_GPIOTE_TRIGGER_HITOLO))
  · simp [hl, hd, call_handler_sense, nrfy_gpio_cfg_sense_set]
  · simp [hl, hd, nrfy_gpio_cfg_sense_set]

theorem ns_sense_other (env : HandlerEnv) (s : Sys) (pin t sn q : Nat)
    (hq : q ≠ pin) :
    (next_sense_cond_call_handler env s pin t sn).sense q = s.sense q := by
  unfold next_sense_cond_call_handler
  by_cases hl : is_level t
  · by_cases hs : s.sense pin = sn <;>
      simp [hl, hs, call_handler_sense, nrfy_gpio_cfg_sense_set, hq]
  · by_cases hd : (t = NRFX_GPIOTE_TRIGGER_TOGGLE ∨
        (sn = NRF_GPIO_PIN_SENSE_HIGH ∧ t = NRFX_GPIOTE_TRIGGER_LOTOHI) ∨
        (sn = NRF_GPIO_PIN_SENSE_LOW ∧ t = NRFX_GPIOTE_TRIGGER_HITOLO)) <;>
      simp [hl, hd, call_handler_sense, nrfy_gpio_cfg_sense_set, hq]

/-- C1: for a level trigger the resolution rule always dispatches, and
re-arms the sense configuration (clear to NOSENSE, then re-set) exactly
when the live sense still equals the sense it fired with; for an edge
trigger it first flips the sense to the opposite polarity and then
dispatches exactly for a toggle trigger, a rising edge observed while
watching for high, or a falling edge observed while watching for low
(next_sense_cond_call_handler, nrfx_gpiote.c:940-975). -/
theorem claim_C1_next_sense_rule (env : HandlerEnv) (s : Sys) (pin trigger sense : Nat) :
    ((trigger = NRFX_GPIOTE_TRIGGER_HIGH ∨ trigger = NRFX_GPIOTE_TRIGGER_LOW) →
      (next_sense_cond_call_handler env s pin trigger sense).dispatches
        = s.dispatches ++ [(pin, trigger)] ∧
      (s.sense pin = sense →
        (next_sense_cond_call_handler env s pin trigger sense).ops
          = s.ops ++ [BackendOp.sense_set pin NRF_GPIO_PIN_NOSENSE,
                      BackendOp.sense_set pin sense] ∧
        (next_sense_cond_call_handler env s pin trigger sense).sense pin = sense) ∧
      (s.sense pin ≠ sense →
        (next_sense_cond_call_handler env s pin trigger sense).ops = s.ops)) ∧
    ((trigger = NRFX_GPIOTE_TRIGGER_LOTOHI ∨ trigger = NRFX_GPIOTE_TRIGGER_HITOLO ∨
        trigger = NRFX_GPIOTE_TRIGGER_TOGGLE) →
      (next_sense_cond_call_handler env s pin trigger sense).sense pin
        = (if sense = NRF_GPIO_PIN_SENSE_HIGH then NRF_GPIO_PIN_SENSE_LOW
           else NRF_GPIO_PIN_SENSE_HIGH) ∧
      ((next_sense_cond_call_handler env s pin trigger sense).dispatches
          = s.dispatches ++ [(pin, trigger)] ↔
        (trigger = NRFX_GPIOTE_TRIGGER_TOGGLE ∨
         (sense = NRF_GPIO_PIN_SENSE_HIGH ∧ trigger = NRFX_GPIOTE_TRIGGER_LOTOHI) ∨
         (sense = NRF_GPIO_PIN_SENSE_LOW ∧ trigger = NRFX_GPIOTE_TRIGGER_HITOLO))) ∧
      ((next_sense_cond_call_handler env s pin trigger sense).dispatches = s.dispatches ↔
        ¬ (trigger = NRFX_GPIOTE_TRIGGER_TOGGLE ∨
           (sense = NRF_GPIO_PIN_SENSE_HIGH ∧ trigger = NRFX_GPIOTE_TRIGGER_LOTOHI) ∨
           (sense = NRF_GPIO_PIN_SENSE_LOW ∧ trigger = NRFX_GPIOTE_TRIGGER_HITOLO)))) := by
  constructor
  · intro hlev
    have hl : is_level trigger = true := by
      rcases hlev with h | h <;> subst h <;> decide
    refine ⟨?_, fun hs => ⟨ns_ops_level_rearm env s pin trigger sense hl hs,
        ns_sense_level_rearm env s pin trigger sense hl hs⟩,
        fun hs => ns_ops_level_norearm env s pin trigger sense hl hs⟩
    have hc : dispatchCond trigger sense = true := by simp [dispatchCond, hl]
    rw [ns_dispatches, hc]
    simp
  · intro hedge
    have hl : is_level trigger = false := by
      rcases hedge with h | h | h <;> subst h <;> decide
    refine ⟨ns_sense_edge_self env s pin trigger sense hl, ?_, ?_⟩
    · by_cases hd : (trigger = NRFX_GPIOTE_TRIGGER_TOGGLE ∨
          (sense = NRF_GPIO_PIN_SENSE_HIGH ∧ trigger = NRFX_GPIOTE_TRIGGER_LOTOHI) ∨
          (sense = NRF_GPIO_PIN_SENSE_LOW ∧ trigger = NRFX_GPIOTE_TRIGGER_HITOLO))
      · have hc : dispatchCond trigger sense = true := by simp [dispatchCond, hd]
        rw [ns_dispatches, hc]
        simp [hd]
      · have hc : dispatchCond trigger sense = false := by simp [dispatchCond, hl, hd]
        rw [ns_dispatches, hc]
        simp [hd]
    · by_cases hd : (trigger = NRFX_GPIOTE_TRIGGER_TOGGLE ∨
          (sense = NRF_GPIO_PIN_SENSE_HIGH ∧ trigger = NRFX_GPIOTE_TRIGGER_LOTOHI) ∨
          (sense = NRF_GPIO_PIN_SENSE_LOW ∧ trigger = NRFX_GPIOTE_TRIGGER_HITOLO))
      · have hc : dispatchCond trigger sense = true := by simp [dispatchCond, hd]
        rw [ns_dispatches, hc]
        simp [hd]
      · have hc : dispatchCond trigger sense = false := by simp [dispatchCond, hl, hd]
        rw [ns_dispatches, hc]
        simp [hd]

/-- All-zero handler environment: callbacks with no hardware effect. -/
def env0 : HandlerEnv := ⟨fun _ => 0, fun _ => 0⟩

/-- A small concrete base system: 8 empty handler slots, no global
handler, 32 unused pins, all handler slots free, empty software-sense
set, live sense watching for high on every pin. -/
def sys0 : Sys :=
  ⟨⟨List.replicate 8 ⟨0, 0⟩, ⟨0, 0⟩, List.replicate 32 0, 255, 0⟩,
   fun _ => NRF_GPIO_PIN_SENSE_HIGH, 0, 0, [], [], [], []⟩

theorem claim_C1_witness :
    ((next_sense_cond_call_handler env0 sys0 0 NRFX_GPIOTE_TRIGGER_HIGH
        NRF_GPIO_PIN_SENSE_HIGH).dispatches = [(0, NRFX_GPIOTE_TRIGGER_HIGH)] ∧
     (next_sense_cond_call_handler env0 sys0 0 NRFX_GPIOTE_TRIGGER_HIGH
        NRF_GPIO_PIN_SENSE_HIGH).ops
        = [BackendOp.sense_set 0 NRF_GPIO_PIN_NOSENSE,
           BackendOp.sense_set 0 NRF_GPIO_PIN_SENSE_HIGH]) ∧
    ((next_sense_cond_call_handler env0 sys0 0 NRFX_GPIOTE_TRIGGER_LOTOHI
        NRF_GPIO_PIN_SENSE_HIGH).sense 0 = NRF_GPIO_PIN_SENSE_LOW ∧
     (next_sense_cond_call_handler env0 sys0 0 NRFX_GPIOTE_TRIGGER_LOTOHI
        NRF_GPIO_PIN_SENSE_HIGH).dispatches = [(0, NRFX_GPIOTE_TRIGGER_LOTOHI)]) := by
  have T := claim_C1_next_sense_rule env0 sys0 0 NRFX_GPIOTE_TRIGGER_HIGH
    NRF_GPIO_PIN_SENSE_HIGH
  have E := claim_C1_next_sense_rule env0 sys0 0 NRFX_GPIOTE_TRIGGER_LOTOHI
    NRF_GPIO_PIN_SENSE_HIGH
  have hsns : sys0.sense 0 = NRF_GPIO_PIN_SENSE_HIGH := rfl
  refine ⟨⟨?_, ?_⟩, ?_, ?_⟩
  · have h := (T.1 (Or.inl rfl)).1
    simpa using h
  · have h := ((T.1 (Or.inl rfl)).2.1 hsns).1
    simpa using h
  · have h := (E.2 (Or.inl rfl)).1
    simpa using h
  · have h := ((E.2 (Or.inl rfl)).2.1).mpr (Or.inr (Or.inl ⟨rfl, rfl⟩))
    simpa using h

/-- C9: call_handler invokes the per-pin handler first (when bound)
with (pin, trigger, context), then the global handler (when set) with
the same pin and trigger and its own context; the global handler runs
even when the pin has no per-pin handler; and
nrfx_gpiote_global_callback_set overwrites the single global slot
(nrfx_gpiote.c:926-938, 600-604). -/
theorem claim_C9_dispatch_and_global (env : HandlerEnv) (s : Sys) (pin trigger h c : Nat) :
    (∀ slot, channel_handler_get s.cb pin = some slot →
      s.cb.global_handler.handler ≠ 0 →
      (call_handler env s pin trigger).calls
        = s.calls ++ [HCall.mk slot.handler pin trigger slot.p_context,
                      HCall.mk s.cb.global_handler.handler pin trigger
                        s.cb.global_handler.p_context]) ∧
    (channel_handler_get s.cb pin = none →
      s.cb.global_handler.handler ≠ 0 →
      (call_handler env s pin trigger).calls
        = s.calls ++ [HCall.mk s.cb.global_handler.handler pin trigger
                        s.cb.global_handler.p_context]) ∧
    (∀ slot, channel_handler_get s.cb pin = some slot →
      s.cb.global_handler.handler = 0 →
      (call_handler env s pin trigger).calls
        = s.calls ++ [HCall.mk slot.handler pin trigger slot.p_context]) ∧
    (nrfx_gpiote_global_callback_set s h c).cb.global_handler = HandlerSlot.mk h c := by
  refine ⟨?_, ?_, ?_, rfl⟩
  · intro slot hslot hg
    rw [call_handler_calls]
    simp [handlerCallsFor, hslot, hg]
  · intro hnone hg
    rw [call_handler_calls]
    simp [handlerCallsFor, hnone, hg]
  · intro slot hslot hg
    rw [call_handler_calls]
    simp [handlerCallsFor, hslot, hg]

/-- Concrete system for the C9 witness: pin 0 is bound to handler slot
0 holding callback 7 with context 11, and the global handler is
callback 9 with context 13. -/
def sysC9 : Sys :=
  ⟨⟨[⟨7, 11⟩], ⟨9, 13⟩, [256], 0, 0⟩,
   fun _ => NRF_GPIO_PIN_NOSENSE, 0, 0, [], [], [], []⟩

theorem claim_C9_witness :
    (call_handler env0 sysC9 0 NRFX_GPIOTE_TRIGGER_TOGGLE).calls
      = [HCall.mk 7 0 NRFX_GPIOTE_TRIGGER_TOGGLE 11,
         HCall.mk 9 0 NRFX_GPIOTE_TRIGGER_TOGGLE 13] ∧
    (nrfx_gpiote_global_callback_set sysC9 21 22).cb.global_handler
      = HandlerSlot.mk 21 22 := by
  have T := claim_C9_dispatch_and_global env0 sysC9 0 NRFX_GPIOTE_TRIGGER_TOGGLE 21 22
  constructor
  · have h := T.1 ⟨7, 11⟩ (by decide) (by decide)
    simpa using h
  · exact T.2.2.2

/-! ## List and flag-table helpers -/

theorem getD_set_self {α : Type} (l : List α) (n : Nat) (v d : α)
    (h : n < l.length) : (l.set n v).getD n d = v := by
  simp [List.getD_eq_getElem?_getD, List.getElem?_set_self h]

theorem getD_set_other {α : Type} (l : List α) (n m : Nat) (v d : α)
    (h : n ≠ m) : (l.set n v).getD m d = l.getD m d := by
  simp [List.getD_eq_getElem?_getD, List.getElem?_set_ne h]

theorem pinFlags_setPinFlags_self (s : Sys) (pin f : Nat)
    (h : pin < s.cb.pin_flags.length) :
    pinFlags (setPinFlags s pin f).cb pin = f := by
  show (s.cb.pin_flags.set pin f).getD pin 0 = f
  exact getD_set_self _ _ _ _ h

theorem pinFlags_setPinFlags_other (s : Sys) (pin q f : Nat) (h : pin ≠ q) :
    pinFlags (setPinFlags s pin f).cb q = pinFlags s.cb q := by
  show (s.cb.pin_flags.set pin f).getD q 0 = s.cb.pin_flags.getD q 0
  exact getD_set_other _ _ _ _ _ h

/-! ## C3: input_configure validation -/

/-- C3: with a trigger configuration request, a dedicated-channel
trigger on an output pin is rejected with InvalidParam; a dedicated
channel together with a level kind on an input pin is rejected with
InvalidParam; software-sense (no channel) trigger configuration on an
output pin is accepted (nrfx_gpiote_input_configure,
nrfx_gpiote.c:479-534). -/
theorem claim_C3_input_configure_checks (s : Sys) (pin : Nat) (tcfg : TriggerCfg) :
    (pin_is_output s.cb pin = true → tcfg.p_in_channel.isSome = true →
      (nrfx_gpiote_input_configure s pin none (some tcfg) none).1
        = NrfxErr.invalidParam) ∧
    (pin_is_output s.cb pin = false → tcfg.p_in_channel.isSome = true →
      (tcfg.trigger = NRFX_GPIOTE_TRIGGER_HIGH ∨
       tcfg.trigger = NRFX_GPIOTE_TRIGGER_LOW) →
      (nrfx_gpiote_input_configure s pin none (some tcfg) none).1
        = NrfxErr.invalidParam) ∧
    (pin_is_output s.cb pin = true → tcfg.p_in_channel = none →
      (nrfx_gpiote_input_configure s pin none (some tcfg) none).1
        = NrfxErr.success) := by
  refine ⟨?_, ?_, ?_⟩
  · intro ho hch
    simp [nrfx_gpiote_input_configure, input_stage, trigger_stage, ho, hch]
  · intro ho hch htr
    have hgt : ¬ (tcfg.trigger ≤ NRFX_GPIOTE_TRIGGER_TOGGLE) := by
      rcases htr with h | h <;> rw [h] <;> decide
    simp [nrfx_gpiote_input_configure, input_stage, trigger_stage, ho, hch, hgt]
  · intro ho hch
    simp [nrfx_gpiote_input_configure, input_stage, trigger_stage, ho, hch]

/-- Concrete system with pin 0 configured as a plain output:
in_use and output flags set, no trigger, no channel, no handler. -/
def sysOut : Sys :=
  ⟨⟨List.replicate 8 ⟨0, 0⟩, ⟨0, 0⟩, [3], 255, 0⟩,
   fun _ => NRF_GPIO_PIN_NOSENSE, 0, 0, [], [], [], []⟩

theorem claim_C3_witness :
    (nrfx_gpiote_input_configure sysOut 0 none
        (some ⟨NRFX_GPIOTE_TRIGGER_LOTOHI, some 2⟩) none).1 = NrfxErr.invalidParam ∧
    (nrfx_gpiote_input_configure sysOut 0 none
        (some ⟨NRFX_GPIOTE_TRIGGER_TOGGLE, none⟩) none).1 = NrfxErr.success := by
  constructor
  · exact (claim_C3_input_configure_checks sysOut 0
      ⟨NRFX_GPIOTE_TRIGGER_LOTOHI, some 2⟩).1 (by decide) (by decide)
  · exact (claim_C3_input_configure_checks sysOut 0
      ⟨NRFX_GPIOTE_TRIGGER_TOGGLE, none⟩).2.2 (by decide) rfl

/-! ## C4: output_configure validation -/

/-- C4: output options are rejected with InvalidParam when the pin is
an input bound to a dedicated event channel, and when the pin has a
trigger configured but the request would disconnect the input buffer;
a dedicated-task-channel request on a pin bound to a dedicated input
event channel is rejected with InvalidParam with the whole state (in
particular the pin record) unchanged (nrfx_gpiote_output_configure,
nrfx_gpiote.c:548-598). -/
theorem claim_C4_output_configure_checks (s : Sys) (pin : Nat)
    (ocfg : OutputCfg) (p_task : Option TaskCfg) (tc : TaskCfg) :
    (pin_is_input s.cb pin = true → pin_in_use_by_te s.cb pin = true →
      nrfx_gpiote_output_configure s pin (some ocfg) p_task
        = (NrfxErr.invalidParam, s)) ∧
    (pin_has_trigger s.cb pin = true →
      ocfg.input_connect = NRF_GPIO_PIN_INPUT_DISCONNECT →
      nrfx_gpiote_output_configure s pin (some ocfg) p_task
        = (NrfxErr.invalidParam, s)) ∧
    (pin_is_input s.cb pin = true → pin_in_use_by_te s.cb pin = true →
      ∀ popt : Option OutputCfg,
        nrfx_gpiote_output_configure s pin popt (some tc)
          = (NrfxErr.invalidParam, s)) := by
  refine ⟨?_, ?_, ?_⟩
  · intro hi hte
    simp [nrfx_gpiote_output_configure, hi, hte]
  · intro htr hdis
    by_cases hin : pin_is_input s.cb pin = true ∧ pin_in_use_by_te s.cb pin = true
    · simp [nrfx_gpiote_output_configure, hin.1, hin.2]
    · rcases Decidable.not_and_iff_or_not.mp hin with h | h <;>
        simp [nrfx_gpiote_output_configure, Bool.not_eq_true] at h <;>
        simp [nrfx_gpiote_output_configure, h, htr, hdis]
  · intro hi hte popt
    match popt with
    | some o => simp [nrfx_gpiote_output_configure, hi, hte]
    | none => simp [nrfx_gpiote_output_configure, output_task_stage, hi]

/-- Concrete system with pin 0 in use as an input bound to dedicated
event channel 2: flags = in_use(1) + te_used(32) + te_id 2 (2 shifted
to bits 13-15 = 16384). -/
def sysEvt : Sys :=
  ⟨⟨List.replicate 8 ⟨0, 0⟩, ⟨0, 0⟩, [16417], 255, 0⟩,
   fun _ => NRF_GPIO_PIN_NOSENSE, 0, 0, [], [], [], []⟩

theorem claim_C4_witness :
    nrfx_gpiote_output_configure sysEvt 0 none (some ⟨4, 1, 0⟩)
      = (NrfxErr.invalidParam, sysEvt) := by
  exact (claim_C4_output_configure_checks sysEvt 0 ⟨0⟩ none ⟨4, 1, 0⟩).2.2
    (by decide) (by decide) none

/-! ## C8: trigger None with a supplied dedicated channel -/

theorem ppts_ops (s : Sys) (pin trigger : Nat) (ue : Bool) :
    (port_pins_and_trigger_store s pin trigger ue).ops = s.ops := by
  unfold port_pins_and_trigger_store setPinFlags
  split <;> rfl

theorem ppts_flags_self (s : Sys) (pin trigger : Nat) (ue : Bool)
    (h : pin < s.cb.pin_flags.length) :
    pinFlags (port_pins_and_trigger_store s pin trigger ue).cb pin
      = pinFlags s.cb pin - 4 * (pinFlags s.cb pin / 4 % 8) + 4 * trigger := by
  unfold port_pins_and_trigger_store
  split <;>
    exact pinFlags_setPinFlags_self _ _ _ h

/-- Evaluation of nrfx_gpiote_input_configure for a trigger request
with kind None and a dedicated channel supplied, on an input pin:
the supplied channel is reset to default, the TE binding field is
cleared, and trigger None is stored (nrfx_gpiote.c:493-533). -/
theorem input_configure_none_chan_eq (s : Sys) (pin ch : Nat)
    (hin : pin_is_output s.cb pin = false) :
    nrfx_gpiote_input_configure s pin none
        (some ⟨NRFX_GPIOTE_TRIGGER_NONE, some ch⟩) none
      = (NrfxErr.success,
         port_pins_and_trigger_store
           { setPinFlags s pin
               (pinFlags s.cb pin - 32 * (pinFlags s.cb pin / 32 % 2)
                 - 8192 * (pinFlags s.cb pin / 8192 % 8)) with
             ops := s.ops ++ [BackendOp.te_default ch] }
           pin NRFX_GPIOTE_TRIGGER_NONE true) := by
  simp [nrfx_gpiote_input_configure, input_stage, trigger_stage, hin,
    NRFX_GPIOTE_TRIGGER_NONE, NRFX_GPIOTE_TRIGGER_TOGGLE, setPinFlags]

/-- C8 counterexample: pin 0 of sysEvt is an input bound to dedicated
channel 2, yet a trigger-None request supplying channel 3 resets
channel 3 (the supplied one) and never resets channel 2 (the
previously bound one), while the claim says the previously bound
channel is reset. -/
theorem claim_C8_counterexample :
    pin_in_use_by_te sysEvt.cb 0 = true ∧
    pin_te_get sysEvt.cb 0 = 2 ∧
    (nrfx_gpiote_input_configure sysEvt 0 none
        (some ⟨NRFX_GPIOTE_TRIGGER_NONE, some 3⟩) none).1 = NrfxErr.success ∧
    (nrfx_gpiote_input_configure sysEvt 0 none
        (some ⟨NRFX_GPIOTE_TRIGGER_NONE, some 3⟩) none).2.ops
      = [BackendOp.te_default 3] ∧
    ¬ (BackendOp.te_default 2 ∈ (nrfx_gpiote_input_configure sysEvt 0 none
        (some ⟨NRFX_GPIOTE_TRIGGER_NONE, some 3⟩) none).2.ops) := by
  refine ⟨by decide, by decide, by decide, by decide, by decide⟩

/-- C8 (amended): a trigger-None request with a dedicated channel
supplied succeeds on an input pin, resets the SUPPLIED channel to its
hardware default, clears the pin channel binding (te_used and te index
fields), and stores trigger None in the record; the previously bound
channel is reset only when it is the supplied one. -/
theorem claim_C8_trigger_none_resets_supplied (s : Sys) (pin ch : Nat)
    (hpin : pin < s.cb.pin_flags.length)
    (hin : pin_is_output s.cb pin = false) :
    (nrfx_gpiote_input_configure s pin none
        (some ⟨NRFX_GPIOTE_TRIGGER_NONE, some ch⟩) none).1 = NrfxErr.success ∧
    (nrfx_gpiote_input_configure s pin none
        (some ⟨NRFX_GPIOTE_TRIGGER_NONE, some ch⟩) none).2.ops
      = s.ops ++ [BackendOp.te_default ch] ∧
    pin_in_use_by_te (nrfx_gpiote_input_configure s pin none
        (some ⟨NRFX_GPIOTE_TRIGGER_NONE, some ch⟩) none).2.cb pin = false ∧
    pin_te_get (nrfx_gpiote_input_configure s pin none
        (some ⟨NRFX_GPIOTE_TRIGGER_NONE, some ch⟩) none).2.cb pin = 0 ∧
    PIN_FLAG_TRIG_MODE_GET (pinFlags (nrfx_gpiote_input_configure s pin none
        (some ⟨NRFX_GPIOTE_TRIGGER_NONE, some ch⟩) none).2.cb pin)
      = NRFX_GPIOTE_TRIGGER_NONE := by
  rw [input_configure_none_chan_eq s pin ch hin]
  have hlen : pin <
      ({ setPinFlags s pin
           (pinFlags s.cb pin - 32 * (pinFlags s.cb pin / 32 % 2)
             - 8192 * (pinFlags s.cb pin / 8192 % 8)) with
         ops := s.ops ++ [BackendOp.te_default ch] } : Sys).cb.pin_flags.length := by
    simpa [setPinFlags] using hpin
  have hmid : pinFlags ({ setPinFlags s pin
           (pinFlags s.cb pin - 32 * (pinFlags s.cb pin / 32 % 2)
             - 8192 * (pinFlags s.cb pin / 8192 % 8)) with
         ops := s.ops ++ [BackendOp.te_default ch] } : Sys).cb pin
      = pinFlags s.cb pin - 32 * (pinFlags s.cb pin / 32 % 2)
          - 8192 * (pinFlags s.cb pin / 8192 % 8) := by
    simpa [setPinFlags, pinFlags] using
      pinFlags_setPinFlags_self s pin _ hpin
  refine ⟨rfl, ?_, ?_, ?_, ?_⟩
  · rw [ppts_ops]
  · rw [pin_in_use_by_te, ppts_flags_self _ _ _ _ hlen, hmid]
    simp only [decide_eq_false_iff_not, NRFX_GPIOTE_TRIGGER_NONE]
    omega
  · rw [pin_te_get, PIN_GET_TE_ID, ppts_flags_self _ _ _ _ hlen, hmid]
    simp only [NRFX_GPIOTE_TRIGGER_NONE]
    omega
  · rw [PIN_FLAG_TRIG_MODE_GET, ppts_flags_self _ _ _ _ hlen, hmid]
    simp only [NRFX_GPIOTE_TRIGGER_NONE]
    omega

theorem claim_C8_amended_witness :
    (nrfx_gpiote_input_configure sysEvt 0 none
        (some ⟨NRFX_GPIOTE_TRIGGER_NONE, some 2⟩) none).1 = NrfxErr.success ∧
    (nrfx_gpiote_input_configure sysEvt 0 none
        (some ⟨NRFX_GPIOTE_TRIGGER_NONE, some 2⟩) none).2.ops
      = [BackendOp.te_default 2] ∧
    pin_in_use_by_te (nrfx_gpiote_input_configure sysEvt 0 none
        (some ⟨NRFX_GPIOTE_TRIGGER_NONE, some 2⟩) none).2.cb 0 = false := by
  have T := claim_C8_trigger_none_resets_supplied sysEvt 0 2 (by decide) (by decide)
  exact ⟨T.1, by simpa using T.2.1, T.2.2.1⟩

/-! ## C6: releasing a handler binding -/

theorem any_iff_exists_getD (l : List Nat) (p : Nat → Bool) :
    l.any p = true ↔ ∃ i, i < l.length ∧ p (l.getD i 0) = true := by
  rw [List.any_eq_true]
  constructor
  · rintro ⟨x, hx, hpx⟩
    obtain ⟨i, hi, hgi⟩ := List.mem_iff_getElem.mp hx
    refine ⟨i, hi, ?_⟩
    rw [List.getD_eq_getElem?_getD, List.getElem?_eq_getElem hi]
    simpa [hgi] using hpx
  · rintro ⟨i, hi, hpi⟩
    refine ⟨l.getD i 0, ?_, hpi⟩
    have hg : l.getD i 0 = l[i] := by
      rw [List.getD_eq_getElem?_getD, List.getElem?_eq_getElem hi]
      rfl
    rw [hg]
    exact List.getElem_mem hi

theorem handler_in_use_iff (cb : CB) (id : Nat) :
    handler_in_use cb id = true ↔
      ∃ q, q < cb.pin_flags.length ∧
        PIN_GET_HANDLER_ID (pinFlags cb q) = some id := by
  unfold handler_in_use
  rw [any_iff_exists_getD]
  unfold pinFlags
  constructor <;> rintro ⟨q, hq, h⟩ <;> exact ⟨q, hq, by simpa using h⟩

theorem release_handler_no_handler (s : Sys) (pin : Nat)
    (h : PIN_GET_HANDLER_ID (pinFlags s.cb pin) = none) :
    release_handler s pin = s := by
  simp only [release_handler, h]

theorem release_handler_shared (s : Sys) (pin id : Nat)
    (h : PIN_GET_HANDLER_ID (pinFlags s.cb pin) = some id)
    (hu : handler_in_use (setPinFlags s pin (pinFlags s.cb pin
        - 256 * (pinFlags s.cb pin / 256 % 32))).cb id = true) :
    release_handler s pin = setPinFlags s pin (pinFlags s.cb pin
        - 256 * (pinFlags s.cb pin / 256 % 32)) := by
  simp only [release_handler, h, hu, if_true]

theorem release_handler_last (s : Sys) (pin id : Nat)
    (h : PIN_GET_HANDLER_ID (pinFlags s.cb pin) = some id)
    (hu : handler_in_use (setPinFlags s pin (pinFlags s.cb pin
        - 256 * (pinFlags s.cb pin / 256 % 32))).cb id = false) :
    release_handler s pin =
      { s with cb := { s.cb with
          pin_flags := s.cb.pin_flags.set pin (pinFlags s.cb pin
            - 256 * (pinFlags s.cb pin / 256 % 32)),
          handlers := s.cb.handlers.set id
            ⟨0, (s.cb.handlers.getD id ⟨0, 0⟩).p_context⟩,
          available_evt_handlers :=
            match nrfx_flag32_free s.cb.available_evt_handlers id with
            | some m => m
            | none => s.cb.available_evt_handlers } } := by
  simp only [release_handler, h, hu, Bool.false_eq_true, if_false]
  rfl

theorem getD_of_length_le {α : Type} (l : List α) (n : Nat) (d : α)
    (h : l.length ≤ n) : l.getD n d = d := by
  rw [List.getD_eq_getElem?_getD, List.getElem?_eq_none h]
  rfl

/-- C6: release_handler clears only the releasing pin handler-slot
reference (the handler field of its flag word); the stored (callback,
context) pair is cleared (callback set to null) and the slot returned
to the handler pool exactly when, after the clear, no other pin record
references that slot index; while another pin still references it, the
slot contents and its allocation stay intact (release_handler and
handler_in_use, nrfx_gpiote.c:312-348). -/
theorem claim_C6_release_semantics (s : Sys) (pin : Nat)
    (hpin : pin < s.cb.pin_flags.length) :
    (PIN_GET_HANDLER_ID (pinFlags s.cb pin) = none → release_handler s pin = s) ∧
    (∀ id, PIN_GET_HANDLER_ID (pinFlags s.cb pin) = some id →
      PIN_GET_HANDLER_ID (pinFlags (release_handler s pin).cb pin) = none ∧
      pinFlags (release_handler s pin).cb pin
        = pinFlags s.cb pin - 256 * (pinFlags s.cb pin / 256 % 32) ∧
      (∀ q, q ≠ pin → pinFlags (release_handler s pin).cb q = pinFlags s.cb q) ∧
      ((∃ q, q < s.cb.pin_flags.length ∧ q ≠ pin ∧
          PIN_GET_HANDLER_ID (pinFlags s.cb q) = some id) →
        (release_handler s pin).cb.handlers = s.cb.handlers ∧
        (release_handler s pin).cb.available_evt_handlers
          = s.cb.available_evt_handlers) ∧
      ((∀ q, q < s.cb.pin_flags.length → q ≠ pin →
          PIN_GET_HANDLER_ID (pinFlags s.cb q) ≠ some id) →
        ((release_handler s pin).cb.handlers.getD id ⟨0, 0⟩).handler = 0 ∧
        (∀ j, j ≠ id → (release_handler s pin).cb.handlers.getD j ⟨0, 0⟩
            = s.cb.handlers.getD j ⟨0, 0⟩) ∧
        (release_handler s pin).cb.available_evt_handlers.testBit id = true)) := by
  refine ⟨release_handler_no_handler s pin, ?_⟩
  intro id h
  have hid16 : id < 16 := by
    unfold PIN_GET_HANDLER_ID at h
    by_cases hb : pinFlags s.cb pin / 256 % 2 = 1
    · simp only [hb, if_true, Option.some.injEq] at h
      omega
    · simp [hb] at h
  have hnone : PIN_GET_HANDLER_ID (pinFlags s.cb pin
      - 256 * (pinFlags s.cb pin / 256 % 32)) = none := by
    unfold PIN_GET_HANDLER_ID
    have hz : (pinFlags s.cb pin - 256 * (pinFlags s.cb pin / 256 % 32)) / 256 % 2
        = 0 := by omega
    simp [hz]
  have hlen1 : (setPinFlags s pin (pinFlags s.cb pin
      - 256 * (pinFlags s.cb pin / 256 % 32))).cb.pin_flags.length
      = s.cb.pin_flags.length := by
    simp [setPinFlags]
  have huse : handler_in_use (setPinFlags s pin (pinFlags s.cb pin
        - 256 * (pinFlags s.cb pin / 256 % 32))).cb id = true ↔
      (∃ q, q < s.cb.pin_flags.length ∧ q ≠ pin ∧
        PIN_GET_HANDLER_ID (pinFlags s.cb q) = some id) := by
    rw [handler_in_use_iff, hlen1]
    constructor
    · rintro ⟨q, hq, hqid⟩
      by_cases hqp : q = pin
      · subst hqp
        rw [pinFlags_setPinFlags_self s q _ hpin, hnone] at hqid
        cases hqid
      · rw [pinFlags_setPinFlags_other s pin q _ (fun hc => hqp hc.symm)] at hqid
        exact ⟨q, hq, hqp, hqid⟩
    · rintro ⟨q, hq, hqp, hqid⟩
      refine ⟨q, hq, ?_⟩
      rw [pinFlags_setPinFlags_other s pin q _ (fun hc => hqp hc.symm)]
      exact hqid
  by_cases hu : handler_in_use (setPinFlags s pin (pinFlags s.cb pin
      - 256 * (pinFlags s.cb pin / 256 % 32))).cb id = true
  · rw [release_handler_shared s pin id h hu]
    refine ⟨?_, pinFlags_setPinFlags_self s pin _ hpin, ?_, ?_, ?_⟩
    · rw [pinFlags_setPinFlags_self s pin _ hpin]
      exact hnone
    · intro q hq
      exact pinFlags_setPinFlags_other s pin q _ (fun hc => hq hc.symm)
    · intro _
      exact ⟨rfl, rfl⟩
    · intro hnouse
      obtain ⟨q, hq, hqp, hqid⟩ := huse.mp hu
      exact absurd hqid (hnouse q hq hqp)
  · have hu2 : handler_in_use (setPinFlags s pin (pinFlags s.cb pin
        - 256 * (pinFlags s.cb pin / 256 % 32))).cb id = false :=
      Bool.not_eq_true _ ▸ Bool.eq_false_iff.mpr hu
    rw [release_handler_last s pin id h hu2]
    refine ⟨?_, ?_, ?_, ?_, ?_⟩
    · show PIN_GET_HANDLER_ID ((s.cb.pin_flags.set pin (pinFlags s.cb pin
        - 256 * (pinFlags s.cb pin / 256 % 32))).getD pin 0) = none
      rw [getD_set_self _ _ _ _ hpin]
      exact hnone
    · show (s.cb.pin_flags.set pin (pinFlags s.cb pin
        - 256 * (pinFlags s.cb pin / 256 % 32))).getD pin 0
        = pinFlags s.cb pin - 256 * (pinFlags s.cb pin / 256 % 32)
      exact getD_set_self _ _ _ _ hpin
    · intro q hq
      show (s.cb.pin_flags.set pin (pinFlags s.cb pin
        - 256 * (pinFlags s.cb pin / 256 % 32))).getD q 0 = pinFlags s.cb q
      exact getD_set_other _ _ _ _ _ (fun hc => hq hc.symm)
    · intro hex
      exact absurd (huse.mpr hex) hu
    · intro _
      refine ⟨?_, ?_, ?_⟩
      · by_cases hlt : id < s.cb.handlers.length
        · show ((s.cb.handlers.set id
              ⟨0, (s.cb.handlers.getD id ⟨0, 0⟩).p_context⟩).getD id ⟨0, 0⟩).handler = 0
          rw [getD_set_self _ _ _ _ hlt]
        · show ((s.cb.handlers.set id
              ⟨0, (s.cb.handlers.getD id ⟨0, 0⟩).p_context⟩).getD id ⟨0, 0⟩).handler = 0
          rw [List.set_eq_of_length_le (by omega)]
          rw [getD_of_length_le _ _ _ (by omega)]
      · intro j hj
        show (s.cb.handlers.set id
            ⟨0, (s.cb.handlers.getD id ⟨0, 0⟩).p_context⟩).getD j ⟨0, 0⟩
            = s.cb.handlers.getD j ⟨0, 0⟩
        exact getD_set_other _ _ _ _ _ (fun hc => hj hc.symm)
      · show (match nrfx_flag32_free s.cb.available_evt_handlers id with
            | some m => m
            | none => s.cb.available_evt_handlers).testBit id = true
        unfold nrfx_flag32_free
        by_cases hb : s.cb.available_evt_handlers.testBit id
        · simp [hb]
        · have hge : ¬ (id ≥ 32) := by omega
          simp [hb, hge, testBit_setBit]

/-- Concrete system for the C6 witness: pins 0 and 1 share handler
slot 0 (flags 257 = in_use + handler-present with index 0), the slot
holds (7, 9), and the pool has slot 0 allocated (mask 0). -/
def sysShare : Sys :=
  ⟨⟨[⟨7, 9⟩], ⟨0, 0⟩, [257, 257], 0, 0⟩,
   fun _ => NRF_GPIO_PIN_NOSENSE, 0, 0, [], [], [], []⟩

theorem claim_C6_witness :
    PIN_GET_HANDLER_ID (pinFlags (release_handler sysShare 0).cb 0) = none ∧
    (release_handler sysShare 0).cb.handlers = sysShare.cb.handlers ∧
    (release_handler sysShare 0).cb.available_evt_handlers = 0 := by
  have T := (claim_C6_release_semantics sysShare 0 (by decide)).2 0 (by decide)
  have hex : ∃ q, q < sysShare.cb.pin_flags.length ∧ q ≠ 0 ∧
      PIN_GET_HANDLER_ID (pinFlags sysShare.cb q) = some 0 :=
    ⟨1, by decide, by decide, by decide⟩
  exact ⟨T.1, (T.2.2.2.1 hex).1, (T.2.2.2.1 hex).2⟩

/-! ## C10: handler registration is not atomic on failure -/

theorem PIN_GET_cleared_field (f : Nat) :
    PIN_GET_HANDLER_ID (f - 256 * (f / 256 % 32)) = none := by
  unfold PIN_GET_HANDLER_ID
  have hz : (f - 256 * (f / 256 % 32)) / 256 % 2 = 0 := by omega
  simp [hz]

/-- After release_handler the pin record holds no handler reference,
whatever the starting state. -/
theorem release_handler_ref_none (s : Sys) (pin : Nat)
    (hpin : pin < s.cb.pin_flags.length) :
    PIN_GET_HANDLER_ID (pinFlags (release_handler s pin).cb pin) = none := by
  cases horig : PIN_GET_HANDLER_ID (pinFlags s.cb pin) with
  | none =>
    rw [release_handler_no_handler s pin horig]
    exact horig
  | some id =>
    by_cases hu : handler_in_use (setPinFlags s pin (pinFlags s.cb pin
        - 256 * (pinFlags s.cb pin / 256 % 32))).cb id = true
    · rw [release_handler_shared s pin id horig hu,
        pinFlags_setPinFlags_self s pin _ hpin]
      exact PIN_GET_cleared_field _
    · have hu2 : handler_in_use (setPinFlags s pin (pinFlags s.cb pin
          - 256 * (pinFlags s.cb pin / 256 % 32))).cb id = false :=
        Bool.eq_false_iff.mpr hu
      rw [release_handler_last s pin id horig hu2]
      show PIN_GET_HANDLER_ID ((s.cb.pin_flags.set pin (pinFlags s.cb pin
        - 256 * (pinFlags s.cb pin / 256 % 32))).getD pin 0) = none
      rw [getD_set_self _ _ _ _ hpin]
      exact PIN_GET_cleared_field _

/-- C10: when a pin already has a handler bound and a registration of a
new non-null pair fails with the pool exhausted (NO_MEM / Exhausted),
the pin is left with no handler binding: the resulting state is exactly
the post-release state, the previous binding having been dropped by the
release_handler call at the top of pin_handler_set and never restored
(pin_handler_set, nrfx_gpiote.c:399-431). -/
theorem claim_C10_register_failure_drops_binding (s : Sys) (pin h c id0 : Nat)
    (hpin : pin < s.cb.pin_flags.length)
    (hbound : PIN_GET_HANDLER_ID (pinFlags s.cb pin) = some id0)
    (hfail : (pin_handler_set s pin h c).1 = NrfxErr.noMem) :
    (pin_handler_set s pin h c).2 = release_handler s pin ∧
    PIN_GET_HANDLER_ID (pinFlags (pin_handler_set s pin h c).2.cb pin) = none := by
  by_cases hh : h = 0
  · exfalso
    unfold pin_handler_set at hfail
    simp [hh] at hfail
  · cases hfind : find_handler h c (release_handler s pin).cb.handlers with
    | some id =>
      exfalso
      unfold pin_handler_set at hfail
      simp [hh, hfind] at hfail
    | none =>
      cases halloc : nrfx_flag32_alloc
          (release_handler s pin).cb.available_evt_handlers with
      | some pr =>
        exfalso
        unfold pin_handler_set at hfail
        simp [hh, hfind, halloc] at hfail
      | none =>
        have hres : (pin_handler_set s pin h c).2 = release_handler s pin := by
          unfold pin_handler_set
          simp [hh, hfind, halloc]
        exact ⟨hres, hres ▸ release_handler_ref_none s pin hpin⟩

theorem claim_C10_witness :
    (pin_handler_set sysShare 0 9 9).1 = NrfxErr.noMem ∧
    (pin_handler_set sysShare 0 9 9).2 = release_handler sysShare 0 ∧
    PIN_GET_HANDLER_ID (pinFlags (pin_handler_set sysShare 0 9 9).2.cb 0) = none := by
  have T := claim_C10_register_failure_drops_binding sysShare 0 9 9 0
    (by decide) (by decide) (by decide)
  exact ⟨by decide, T.1, T.2⟩

/-! ## C7: configure and uninit round trip -/

theorem length_setPinFlags (s : Sys) (pin f : Nat) :
    (setPinFlags s pin f).cb.pin_flags.length = s.cb.pin_flags.length := by
  simp [setPinFlags]

theorem release_handler_length (s : Sys) (pin : Nat) :
    (release_handler s pin).cb.pin_flags.length = s.cb.pin_flags.length := by
  cases horig : PIN_GET_HANDLER_ID (pinFlags s.cb pin) with
  | none => rw [release_handler_no_handler s pin horig]
  | some id =>
    by_cases hu : handler_in_use (setPinFlags s pin (pinFlags s.cb pin
        - 256 * (pinFlags s.cb pin / 256 % 32))).cb id = true
    · rw [release_handler_shared s pin id horig hu, length_setPinFlags]
    · rw [release_handler_last s pin id horig (Bool.eq_false_iff.mpr hu)]
      simp

theorem trigger_disable_cb (s : Sys) (pin : Nat) :
    (nrfx_gpiote_trigger_disable s pin).cb = s.cb := by
  unfold nrfx_gpiote_trigger_disable nrfy_gpio_cfg_sense_set
  split <;> rfl

theorem phtu_flags_zero (s : Sys) (pin : Nat)
    (hpin : pin < s.cb.pin_flags.length) :
    pinFlags (pin_handler_trigger_uninit s pin).cb pin = 0 := by
  unfold pin_handler_trigger_uninit
  split
  · apply pinFlags_setPinFlags_self
    rw [release_handler_length]
    simpa using hpin
  · apply pinFlags_setPinFlags_self
    rw [release_handler_length]
    simpa using hpin

/-- pin_uninit on an in-use pin succeeds and zeroes the pin record
(nrfx_gpiote.c:371-383, 353-369). -/
theorem pin_uninit_zeroes (s : Sys) (pin : Nat)
    (hpin : pin < s.cb.pin_flags.length)
    (hin : pin_in_use s.cb pin = true) :
    (nrfx_gpiote_pin_uninit s pin).1 = NrfxErr.success ∧
    pinFlags (nrfx_gpiote_pin_uninit s pin).2.cb pin = 0 := by
  unfold nrfx_gpiote_pin_uninit
  rw [hin]
  refine ⟨rfl, ?_⟩
  show pinFlags (pin_handler_trigger_uninit
    (nrfx_gpiote_trigger_disable s pin) pin).cb pin = 0
  apply phtu_flags_zero
  rw [trigger_disable_cb]
  exact hpin

/-- pin_uninit on a pin not in use fails with InvalidParam and leaves
the whole state untouched (nrfx_gpiote.c:373-376). -/
theorem pin_uninit_not_in_use (s : Sys) (pin : Nat)
    (hnin : pin_in_use s.cb pin = false) :
    nrfx_gpiote_pin_uninit s pin = (NrfxErr.invalidParam, s) := by
  unfold nrfx_gpiote_pin_uninit
  rw [hnin]
  rfl

theorem input_stage_some_ok (s : Sys) (pin : Nat) (icfg : InputCfg) (s1 : Sys)
    (hpin : pin < s.cb.pin_flags.length)
    (hok : input_stage s pin (some icfg) = .ok s1) :
    s1.cb.pin_flags.length = s.cb.pin_flags.length ∧
    pinFlags s1.cb pin % 2 = 1 := by
  unfold input_stage at hok
  by_cases hto : pin_is_task_output s.cb pin = true
  · rw [hto] at hok
    cases hok
  · rw [Bool.eq_false_iff.mpr hto] at hok
    simp only [Bool.false_eq_true, if_false, Except.ok.injEq] at hok
    subst hok
    constructor
    · rw [length_setPinFlags]
    · rw [pinFlags_setPinFlags_self _ _ _ (by simpa using hpin)]
      omega

theorem ppts_length (s : Sys) (pin trigger : Nat) (ue : Bool) :
    (port_pins_and_trigger_store s pin trigger ue).cb.pin_flags.length
      = s.cb.pin_flags.length := by
  unfold port_pins_and_trigger_store
  split <;> simp [setPinFlags]

theorem ppts_parity (s : Sys) (pin trigger : Nat) (ue : Bool)
    (hpin : pin < s.cb.pin_flags.length) :
    pinFlags (port_pins_and_trigger_store s pin trigger ue).cb pin % 2
      = pinFlags s.cb pin % 2 := by
  rw [ppts_flags_self s pin trigger ue hpin]
  omega

theorem trigger_stage_ok (s : Sys) (pin : Nat) (pt : Option TriggerCfg) (s2 : Sys)
    (hpin : pin < s.cb.pin_flags.length)
    (hok : trigger_stage s pin pt = .ok s2) :
    s2.cb.pin_flags.length = s.cb.pin_flags.length ∧
    pinFlags s2.cb pin % 2 = pinFlags s.cb pin % 2 := by
  match pt with
  | none =>
    unfold trigger_stage at hok
    cases hok
    exact ⟨rfl, rfl⟩
  | some cfg =>
    unfold trigger_stage at hok
    by_cases ho : pin_is_output s.cb pin = true
    · rw [ho] at hok
      simp only [if_true] at hok
      by_cases hue : cfg.p_in_channel.isSome = true
      · rw [hue] at hok
        cases hok
      · rw [Bool.eq_false_iff.mpr hue] at hok
        simp only [Bool.false_eq_true, if_false, Except.ok.injEq] at hok
        subst hok
        exact ⟨ppts_length .., ppts_parity _ _ _ _ hpin⟩
    · rw [Bool.eq_false_iff.mpr ho] at hok
      simp only [Bool.false_eq_true, if_false] at hok
      have hpin1 : pin < (setPinFlags s pin (pinFlags s.cb pin
          - 32 * (pinFlags s.cb pin / 32 % 2)
          - 8192 * (pinFlags s.cb pin / 8192 % 8))).cb.pin_flags.length := by
        rw [length_setPinFlags]
        exact hpin
      have hmid : pinFlags (setPinFlags s pin (pinFlags s.cb pin
          - 32 * (pinFlags s.cb pin / 32 % 2)
          - 8192 * (pinFlags s.cb pin / 8192 % 8))).cb pin % 2
          = pinFlags s.cb pin % 2 := by
        rw [pinFlags_setPinFlags_self _ _ _ hpin]
        omega
      by_cases hue : cfg.p_in_channel.isSome = true
      · rw [hue] at hok
        simp only [if_true] at hok
        by_cases hedge : (cfg.trigger ≤ NRFX_GPIOTE_TRIGGER_TOGGLE)
        · have hnotb : (!decide (cfg.trigger ≤ NRFX_GPIOTE_TRIGGER_TOGGLE)) = false := by
            simp [hedge]
          rw [hnotb] at hok
          simp only [Bool.false_eq_true, if_false] at hok
          by_cases hz : cfg.trigger = NRFX_GPIOTE_TRIGGER_NONE
          · rw [if_pos hz] at hok
            cases hok
            constructor
            · rw [ppts_length]
              simpa using (length_setPinFlags s pin _)
            · have := ppts_parity ({ setPinFlags s pin (pinFlags s.cb pin
                  - 32 * (pinFlags s.cb pin / 32 % 2)
                  - 8192 * (pinFlags s.cb pin / 8192 % 8)) with
                  ops := (setPinFlags s pin (pinFlags s.cb pin
                    - 32 * (pinFlags s.cb pin / 32 % 2)
                    - 8192 * (pinFlags s.cb pin / 8192 % 8))).ops
                      ++ [BackendOp.te_default (cfg.p_in_channel.getD 0)] } : Sys)
                pin cfg.trigger true (by simpa using hpin1)
              rw [this]
              exact hmid
          · rw [if_neg hz] at hok
            cases hok
            constructor
            · rw [ppts_length, length_setPinFlags]
              simpa using (length_setPinFlags s pin _)
            · rw [ppts_parity _ _ _ _ (by rw [length_setPinFlags]; simpa using hpin1)]
              rw [pinFlags_setPinFlags_self _ _ _ (by simpa using hpin1)]
              have := hmid
              omega
        · have hnotb : (!decide (cfg.trigger ≤ NRFX_GPIOTE_TRIGGER_TOGGLE)) = true := by
            simp [hedge]
          rw [hnotb] at hok
          simp only [if_true] at hok
          cases hok
      · rw [Bool.eq_false_iff.mpr hue] at hok
        simp only [Bool.false_eq_true, if_false, Except.ok.injEq] at hok
        subst hok
        constructor
        · rw [ppts_length, length_setPinFlags]
        · rw [ppts_parity _ _ _ _ hpin1]
          exact hmid

theorem release_handler_parity (s : Sys) (pin : Nat)
    (hpin : pin < s.cb.pin_flags.length) :
    pinFlags (release_handler s pin).cb pin % 2 = pinFlags s.cb pin % 2 := by
  cases horig : PIN_GET_HANDLER_ID (pinFlags s.cb pin) with
  | none => rw [release_handler_no_handler s pin horig]
  | some id =>
    by_cases hu : handler_in_use (setPinFlags s pin (pinFlags s.cb pin
        - 256 * (pinFlags s.cb pin / 256 % 32))).cb id = true
    · rw [release_handler_shared s pin id horig hu,
        pinFlags_setPinFlags_self s pin _ hpin]
      omega
    · rw [release_handler_last s pin id horig (Bool.eq_false_iff.mpr hu)]
      show (s.cb.pin_flags.set pin (pinFlags s.cb pin
        - 256 * (pinFlags s.cb pin / 256 % 32))).getD pin 0 % 2
        = pinFlags s.cb pin % 2
      rw [getD_set_self _ _ _ _ hpin]
      omega

theorem pin_handler_set_preserves (s : Sys) (pin h c : Nat)
    (hpin : pin < s.cb.pin_flags.length) :
    (pin_handler_set s pin h c).2.cb.pin_flags.length = s.cb.pin_flags.length ∧
    pinFlags (pin_handler_set s pin h c).2.cb pin % 2 = pinFlags s.cb pin % 2 := by
  have hrl : (release_handler s pin).cb.pin_flags.length = s.cb.pin_flags.length :=
    release_handler_length s pin
  have hrp : pinFlags (release_handler s pin).cb pin % 2 = pinFlags s.cb pin % 2 :=
    release_handler_parity s pin hpin
  have hrpin : pin < (release_handler s pin).cb.pin_flags.length := by omega
  unfold pin_handler_set
  by_cases hh : h = 0
  · simp only [hh, if_true]
    exact ⟨hrl, hrp⟩
  · simp only [hh, if_false]
    cases hfind : find_handler h c (release_handler s pin).cb.handlers with
    | some id =>
      simp only
      constructor
      · rw [length_setPinFlags]
        simpa using hrl
      · rw [pinFlags_setPinFlags_self _ _ _ (by simpa using hrpin)]
        have : pinFlags ({ release_handler s pin with
            cb := { (release_handler s pin).cb with
              handlers := (release_handler s pin).cb.handlers.set id ⟨h, c⟩ } } : Sys).cb
            pin = pinFlags (release_handler s pin).cb pin := rfl
        rw [this]
        omega
    | none =>
      cases halloc : nrfx_flag32_alloc
          (release_handler s pin).cb.available_evt_handlers with
      | none =>
        simp only
        exact ⟨hrl, hrp⟩
      | some pr =>
        simp only
        constructor
        · rw [length_setPinFlags]
          simpa using hrl
        · rw [pinFlags_setPinFlags_self _ _ _ (by simpa using hrpin)]
          show (pinFlags (release_handler s pin).cb pin + 256 + 512 * pr.1) % 2
            = pinFlags s.cb pin % 2
          omega

/-- C7 counterexample: from the all-default record, a configure_input
call that carries only a trigger configuration (software-sense toggle,
no input options) succeeds but never marks the pin in use
(nrfx_gpiote.c:476 runs only when p_input_config is given), so the
subsequent pin_uninit fails with InvalidParam and the record keeps the
stored trigger bits instead of returning to the all-default word. -/
theorem claim_C7_counterexample :
    pinFlags sys0.cb 0 = 0 ∧
    (nrfx_gpiote_input_configure sys0 0 none
        (some ⟨NRFX_GPIOTE_TRIGGER_TOGGLE, none⟩) none).1 = NrfxErr.success ∧
    (nrfx_gpiote_pin_uninit (nrfx_gpiote_input_configure sys0 0 none
        (some ⟨NRFX_GPIOTE_TRIGGER_TOGGLE, none⟩) none).2 0).1
      = NrfxErr.invalidParam ∧
    pinFlags (nrfx_gpiote_pin_uninit (nrfx_gpiote_input_configure sys0 0 none
        (some ⟨NRFX_GPIOTE_TRIGGER_TOGGLE, none⟩) none).2 0).2.cb 0 ≠ 0 := by
  refine ⟨by decide, by decide, by decide, by decide⟩

/-- C7 (amended): a successful configure_input call that includes
input options marks the pin in use, and a following pin_uninit succeeds
and returns the pin flag word to zero, the all-default state; and
pin_uninit on a pin not in use returns InvalidParam without modifying
any state. -/
theorem claim_C7_roundtrip_with_input (s : Sys) (pin : Nat)
    (icfg : InputCfg) (pt : Option TriggerCfg) (ph : Option HandlerCfg)
    (hpin : pin < s.cb.pin_flags.length)
    (hok : (nrfx_gpiote_input_configure s pin (some icfg) pt ph).1
      = NrfxErr.success) :
    (nrfx_gpiote_pin_uninit
        (nrfx_gpiote_input_configure s pin (some icfg) pt ph).2 pin).1
      = NrfxErr.success ∧
    pinFlags (nrfx_gpiote_pin_uninit
        (nrfx_gpiote_input_configure s pin (some icfg) pt ph).2 pin).2.cb pin
      = 0 ∧
    (∀ s2 pin2, pin_in_use s2.cb pin2 = false →
      nrfx_gpiote_pin_uninit s2 pin2 = (NrfxErr.invalidParam, s2)) := by
  have hmain : pin < (nrfx_gpiote_input_configure s pin
        (some icfg) pt ph).2.cb.pin_flags.length ∧
      pin_in_use (nrfx_gpiote_input_configure s pin
        (some icfg) pt ph).2.cb pin = true := by
    unfold nrfx_gpiote_input_configure at hok ⊢
    cases hi : input_stage s pin (some icfg) with
    | error s1 =>
      rw [hi] at hok
      simp at hok
    | ok s1 =>
      rw [hi] at hok
      dsimp only at hok ⊢
      obtain ⟨hl1, hp1⟩ := input_stage_some_ok s pin icfg s1 hpin hi
      have hpin1 : pin < s1.cb.pin_flags.length := by omega
      cases ht : trigger_stage s1 pin pt with
      | error s2 =>
        rw [ht] at hok
        simp at hok
      | ok s2 =>
        rw [ht] at hok
        dsimp only at hok ⊢
        obtain ⟨hl2, hp2⟩ := trigger_stage_ok s1 pin pt s2 hpin1 ht
        have hpin2 : pin < s2.cb.pin_flags.length := by omega
        cases ph with
        | none =>
          refine ⟨by simpa using hpin2, ?_⟩
          unfold pin_in_use
          simp only [decide_eq_true_eq]
          omega
        | some hc =>
          obtain ⟨hl3, hp3⟩ := pin_handler_set_preserves s2 pin hc.handler
            hc.p_context hpin2
          show pin < (pin_handler_set s2 pin hc.handler
              hc.p_context).2.cb.pin_flags.length ∧
            pin_in_use (pin_handler_set s2 pin hc.handler
              hc.p_context).2.cb pin = true
          refine ⟨by omega, ?_⟩
          unfold pin_in_use
          simp only [decide_eq_true_eq]
          omega
  obtain ⟨hz1, hz2⟩ := pin_uninit_zeroes _ pin hmain.1 hmain.2
  exact ⟨hz1, hz2, fun s2 pin2 hnin => pin_uninit_not_in_use s2 pin2 hnin⟩

theorem claim_C7_witness :
    (nrfx_gpiote_pin_uninit (nrfx_gpiote_input_configure sys0 0 (some ⟨0⟩)
        (some ⟨NRFX_GPIOTE_TRIGGER_TOGGLE, none⟩) none).2 0).1 = NrfxErr.success ∧
    pinFlags (nrfx_gpiote_pin_uninit (nrfx_gpiote_input_configure sys0 0
        (some ⟨0⟩) (some ⟨NRFX_GPIOTE_TRIGGER_TOGGLE, none⟩) none).2 0).2.cb 0
      = 0 := by
  have T := claim_C7_roundtrip_with_input sys0 0 ⟨0⟩
    (some ⟨NRFX_GPIOTE_TRIGGER_TOGGLE, none⟩) none (by decide) (by decide)
  exact ⟨T.1, T.2.1⟩

/-! ## C5: handler registration dedup -/

theorem getD_mem {α : Type} (l : List α) (j : Nat) (d : α) (hj : j < l.length) :
    l.getD j d ∈ l := by
  have hg : l.getD j d = l[j] := by
    rw [List.getD_eq_getElem?_getD, List.getElem?_eq_getElem hj]
    rfl
  rw [hg]
  exact List.getElem_mem hj

theorem find_handler_none_iff (h c : Nat) (hs : List HandlerSlot) :
    find_handler h c hs = none ↔
      ∀ slot ∈ hs, ¬(slot.handler = h ∧ slot.p_context = c) := by
  induction hs with
  | nil => simp [find_handler]
  | cons a rest ih =>
    unfold find_handler
    by_cases ha : a.handler = h ∧ a.p_context = c
    · simp [ha]
    · rw [if_neg ha]
      have hmapn : (find_handler h c rest).map (· + 1) = none ↔
          find_handler h c rest = none := by
        cases find_handler h c rest <;> simp
      rw [hmapn, ih]
      constructor
      · intro hrest slot hmem
        rcases List.mem_cons.mp hmem with rfl | hm
        · exact ha
        · exact hrest slot hm
      · intro hall slot hmem
        exact hall slot (List.mem_cons_of_mem a hmem)

theorem find_handler_set_self (h c : Nat) (hs : List HandlerSlot) (id : Nat)
    (hid : id < hs.length)
    (hnone : ∀ slot ∈ hs, ¬(slot.handler = h ∧ slot.p_context = c)) :
    find_handler h c (hs.set id ⟨h, c⟩) = some id := by
  induction hs generalizing id with
  | nil => simp at hid
  | cons a rest ih =>
    match id with
    | 0 =>
      show find_handler h c (⟨h, c⟩ :: rest) = some 0
      unfold find_handler
      simp
    | n + 1 =>
      show find_handler h c (a :: rest.set n ⟨h, c⟩) = some (n + 1)
      unfold find_handler
      have ha : ¬(a.handler = h ∧ a.p_context = c) := hnone a (List.mem_cons_self a rest)
      rw [if_neg ha]
      have hrec := ih n (by simpa using hid)
        (fun slot hm => hnone slot (List.mem_cons_of_mem a hm))
      rw [hrec]
      rfl

theorem lowestSetBit_lt (mask n : Nat) (hm : mask ≠ 0) (hlt : mask < 2 ^ n) :
    lowestSetBit mask < n := by
  have h1 := testBit_lowestSetBit mask hm
  have h2 : 2 ^ lowestSetBit mask ≤ mask := Nat.testBit_implies_ge h1
  by_contra hcon
  push_neg at hcon
  have h3 : 2 ^ n ≤ 2 ^ lowestSetBit mask := Nat.pow_le_pow_right (by omega) hcon
  omega

theorem PIN_GET_clean (f : Nat) (h : f / 256 % 32 = 0) :
    PIN_GET_HANDLER_ID f = none := by
  unfold PIN_GET_HANDLER_ID
  have hz : f / 256 % 2 = 0 := by omega
  simp [hz]

theorem PIN_GET_stored (f id : Nat) (hclean : f / 256 % 32 = 0) (hid : id < 16) :
    PIN_GET_HANDLER_ID (f + 256 + 512 * id) = some id := by
  unfold PIN_GET_HANDLER_ID
  have h1 : (f + 256 + 512 * id) / 256 % 2 = 1 := by omega
  have h2 : (f + 256 + 512 * id) / 512 % 16 = id := by omega
  simp [h1, h2]

theorem pin_handler_set_alloc_eq (s : Sys) (pin h c : Nat)
    (hclean : pinFlags s.cb pin / 256 % 32 = 0)
    (hh : h ≠ 0)
    (hfind : find_handler h c s.cb.handlers = none)
    (hmask : s.cb.available_evt_handlers ≠ 0) :
    pin_handler_set s pin h c
      = (NrfxErr.success,
         setPinFlags
           { s with cb := { s.cb with
               handlers := s.cb.handlers.set
                 (lowestSetBit s.cb.available_evt_handlers) ⟨h, c⟩,
               available_evt_handlers := clearBit s.cb.available_evt_handlers
                 (lowestSetBit s.cb.available_evt_handlers) } }
           pin (pinFlags s.cb pin + 256
                + 512 * lowestSetBit s.cb.available_evt_handlers)) := by
  unfold pin_handler_set
  rw [release_handler_no_handler s pin (PIN_GET_clean _ hclean)]
  simp only [hh, if_false, hfind]
  unfold nrfx_flag32_alloc
  rw [if_neg hmask]
  rfl

theorem pin_handler_set_reuse_eq (s : Sys) (pin h c id : Nat)
    (hclean : pinFlags s.cb pin / 256 % 32 = 0)
    (hh : h ≠ 0)
    (hfind : find_handler h c s.cb.handlers = some id) :
    pin_handler_set s pin h c
      = (NrfxErr.success,
         setPinFlags
           { s with cb := { s.cb with handlers := s.cb.handlers.set id ⟨h, c⟩ } }
           pin (pinFlags s.cb pin + 256 + 512 * id)) := by
  unfold pin_handler_set
  rw [release_handler_no_handler s pin (PIN_GET_clean _ hclean)]
  simp only [hh, if_false, hfind]
  rfl

/-- C5: handler registration deduplicates by value equality of the
(callback, context) pair.  When two pins with clean handler fields
register an identical pair not yet stored anywhere: the first
registration allocates the first free slot from the pool, the second
returns that already-occupied slot and consumes no further slot (the
pool mask is unchanged by it), both pins reference the same slot, and
exactly one slot holds the pair.  A registration of a pair not stored
in any slot fails with the pool exhausted error when no free slot
remains (find_handler and pin_handler_set, nrfx_gpiote.c:385-431). -/
theorem claim_C5_handler_dedup (s : Sys) (p1 p2 h c : Nat)
    (hne : p1 ≠ p2)
    (hp1 : p1 < s.cb.pin_flags.length) (hp2 : p2 < s.cb.pin_flags.length)
    (hc1 : pinFlags s.cb p1 / 256 % 32 = 0)
    (hc2 : pinFlags s.cb p2 / 256 % 32 = 0)
    (hh : h ≠ 0)
    (hfind : find_handler h c s.cb.handlers = none)
    (hmask : s.cb.available_evt_handlers ≠ 0)
    (hmlt : s.cb.available_evt_handlers < 2 ^ s.cb.handlers.length)
    (hlen : s.cb.handlers.length ≤ 15) :
    (pin_handler_set s p1 h c).1 = NrfxErr.success ∧
    (pin_handler_set (pin_handler_set s p1 h c).2 p2 h c).1 = NrfxErr.success ∧
    PIN_GET_HANDLER_ID
        (pinFlags (pin_handler_set (pin_handler_set s p1 h c).2 p2 h c).2.cb p1)
      = some (lowestSetBit s.cb.available_evt_handlers) ∧
    PIN_GET_HANDLER_ID
        (pinFlags (pin_handler_set (pin_handler_set s p1 h c).2 p2 h c).2.cb p2)
      = some (lowestSetBit s.cb.available_evt_handlers) ∧
    (pin_handler_set s p1 h c).2.cb.available_evt_handlers
      = clearBit s.cb.available_evt_handlers
          (lowestSetBit s.cb.available_evt_handlers) ∧
    (pin_handler_set (pin_handler_set s p1 h c).2 p2 h c).2.cb.available_evt_handlers
      = (pin_handler_set s p1 h c).2.cb.available_evt_handlers ∧
    (∀ j, j < s.cb.handlers.length →
      ((pin_handler_set (pin_handler_set s p1 h c).2 p2 h c).2.cb.handlers.getD j
          ⟨0, 0⟩ = ⟨h, c⟩ ↔ j = lowestSetBit s.cb.available_evt_handlers)) ∧
    (∀ s2 pin2 h2 c2, pinFlags s2.cb pin2 / 256 % 32 = 0 → h2 ≠ 0 →
      find_handler h2 c2 s2.cb.handlers = none →
      s2.cb.available_evt_handlers = 0 →
      (pin_handler_set s2 pin2 h2 c2).1 = NrfxErr.noMem) := by
  have hid : lowestSetBit s.cb.available_evt_handlers < s.cb.handlers.length :=
    lowestSetBit_lt _ _ hmask hmlt
  have hid16 : lowestSetBit s.cb.available_evt_handlers < 16 := by omega
  have hnoslot := (find_handler_none_iff h c s.cb.handlers).mp hfind
  have he1 := pin_handler_set_alloc_eq s p1 h c hc1 hh hfind hmask
  have hS1handlers : (pin_handler_set s p1 h c).2.cb.handlers
      = s.cb.handlers.set (lowestSetBit s.cb.available_evt_handlers) ⟨h, c⟩ := by
    rw [he1]
    rfl
  have hS1avail : (pin_handler_set s p1 h c).2.cb.available_evt_handlers
      = clearBit s.cb.available_evt_handlers
          (lowestSetBit s.cb.available_evt_handlers) := by
    rw [he1]
    rfl
  have hS1len : (pin_handler_set s p1 h c).2.cb.pin_flags.length
      = s.cb.pin_flags.length := by
    rw [he1]
    simp [setPinFlags]
  have hS1flags1 : pinFlags (pin_handler_set s p1 h c).2.cb p1
      = pinFlags s.cb p1 + 256
        + 512 * lowestSetBit s.cb.available_evt_handlers := by
    rw [he1]
    exact pinFlags_setPinFlags_self _ _ _ (by simpa using hp1)
  have hS1flags2 : pinFlags (pin_handler_set s p1 h c).2.cb p2
      = pinFlags s.cb p2 := by
    rw [he1]
    exact pinFlags_setPinFlags_other _ _ _ _ hne
  have hclean2 : pinFlags (pin_handler_set s p1 h c).2.cb p2 / 256 % 32 = 0 := by
    rw [hS1flags2]
    exact hc2
  have hfind2 : find_handler h c (pin_handler_set s p1 h c).2.cb.handlers
      = some (lowestSetBit s.cb.available_evt_handlers) := by
    rw [hS1handlers]
    exact find_handler_set_self h c s.cb.handlers _ hid hnoslot
  have he2 := pin_handler_set_reuse_eq (pin_handler_set s p1 h c).2 p2 h c
    (lowestSetBit s.cb.available_evt_handlers) hclean2 hh hfind2
  refine ⟨by rw [he1], by rw [he2], ?_, ?_, hS1avail, by rw [he2]; rfl, ?_, ?_⟩
  · rw [he2]
    have hstep : pinFlags (setPinFlags
        { (pin_handler_set s p1 h c).2 with cb :=
          { (pin_handler_set s p1 h c).2.cb with
            handlers := (pin_handler_set s p1 h c).2.cb.handlers.set
              (lowestSetBit s.cb.available_evt_handlers) ⟨h, c⟩ } }
        p2 (pinFlags (pin_handler_set s p1 h c).2.cb p2 + 256
            + 512 * lowestSetBit s.cb.available_evt_handlers)).cb p1
        = pinFlags (pin_handler_set s p1 h c).2.cb p1 :=
      pinFlags_setPinFlags_other _ _ _ _ (fun hq => hne hq.symm)
    rw [hstep, hS1flags1]
    exact PIN_GET_stored _ _ hc1 hid16
  · rw [he2]
    have hstep : pinFlags (setPinFlags
        { (pin_handler_set s p1 h c).2 with cb :=
          { (pin_handler_set s p1 h c).2.cb with
            handlers := (pin_handler_set s p1 h c).2.cb.handlers.set
              (lowestSetBit s.cb.available_evt_handlers) ⟨h, c⟩ } }
        p2 (pinFlags (pin_handler_set s p1 h c).2.cb p2 + 256
            + 512 * lowestSetBit s.cb.available_evt_handlers)).cb p2
        = pinFlags (pin_handler_set s p1 h c).2.cb p2 + 256
            + 512 * lowestSetBit s.cb.available_evt_handlers :=
      pinFlags_setPinFlags_self _ _ _ (by simpa [hS1len] using hp2)
    rw [hstep, hS1flags2]
    exact PIN_GET_stored _ _ hc2 hid16
  · intro j hj
    rw [he2]
    show ((pin_handler_set s p1 h c).2.cb.handlers.set
        (lowestSetBit s.cb.available_evt_handlers) ⟨h, c⟩).getD j ⟨0, 0⟩
        = ⟨h, c⟩ ↔ j = lowestSetBit s.cb.available_evt_handlers
    rw [hS1handlers, List.set_set]
    constructor
    · intro hgd
      by_contra hjid
      rw [getD_set_other _ _ _ _ _ (fun hq => hjid hq.symm)] at hgd
      have hm := getD_mem s.cb.handlers j ⟨0, 0⟩ hj
      rw [hgd] at hm
      exact hnoslot _ hm ⟨rfl, rfl⟩
    · intro hjid
      subst hjid
      exact getD_set_self _ _ _ _ hid
  · intro s2 pin2 h2 c2 hcl2 hh2 hfd2 hm2
    unfold pin_handler_set
    rw [release_handler_no_handler s2 pin2 (PIN_GET_clean _ hcl2)]
    simp only [hh2, if_false, hfd2]
    unfold nrfx_flag32_alloc
    rw [if_pos hm2]

/-- Concrete system for the C5 witness: two empty handler slots (pool
mask 3), two unused pins. -/
def sys5 : Sys :=
  ⟨⟨[⟨0, 0⟩, ⟨0, 0⟩], ⟨0, 0⟩, [0, 0], 3, 0⟩,
   fun _ => NRF_GPIO_PIN_NOSENSE, 0, 0, [], [], [], []⟩

theorem claim_C5_witness :
    (pin_handler_set sys5 0 7 9).1 = NrfxErr.success ∧
    (pin_handler_set (pin_handler_set sys5 0 7 9).2 1 7 9).1 = NrfxErr.success ∧
    PIN_GET_HANDLER_ID
        (pinFlags (pin_handler_set (pin_handler_set sys5 0 7 9).2 1 7 9).2.cb 0)
      = some 0 ∧
    PIN_GET_HANDLER_ID
        (pinFlags (pin_handler_set (pin_handler_set sys5 0 7 9).2 1 7 9).2.cb 1)
      = some 0 ∧
    (pin_handler_set (pin_handler_set sys5 0 7 9).2 1 7 9).2.cb.available_evt_handlers
      = (pin_handler_set sys5 0 7 9).2.cb.available_evt_handlers := by
  have T := claim_C5_handler_dedup sys5 0 1 7 9 (by decide) (by decide) (by decide)
    (by decide) (by decide) (by decide) (by decide) (by decide) (by decide)
    (by decide)
  have hlsb : lowestSetBit sys5.cb.available_evt_handlers = 0 := by decide
  refine ⟨T.1, T.2.1, ?_, ?_, T.2.2.2.2.2.1⟩
  · have := T.2.2.1
    rw [hlsb] at this
    exact this
  · have := T.2.2.2.1
    rw [hlsb] at this
    exact this

/-! ## C2: the port-event resolution loops never drop a pending transition -/

theorem lpp_cb (env : HandlerEnv) : ∀ (pins : List Nat) (s : Sys),
    (latch_pins_process env pins s).cb = s.cb := by
  intro pins
  induction pins with
  | nil => intro s; rfl
  | cons pin rest ih =>
    intro s
    unfold latch_pins_process
    rw [ih]
    show (next_sense_cond_call_handler env
      { s with portProcessed := s.portProcessed ++ [pin] } pin
      (PIN_FLAG_TRIG_MODE_GET (pinFlags s.cb pin)) (s.sense pin)).cb = s.cb
    rw [ns_cb]

theorem lpp_processed (env : HandlerEnv) : ∀ (pins : List Nat) (s : Sys),
    (latch_pins_process env pins s).portProcessed
      = s.portProcessed ++ pins := by
  intro pins
  induction pins with
  | nil => intro s; simp [latch_pins_process]
  | cons pin rest ih =>
    intro s
    unfold latch_pins_process
    rw [ih]
    show (next_sense_cond_call_handler env
        { s with portProcessed := s.portProcessed ++ [pin] } pin
        (PIN_FLAG_TRIG_MODE_GET (pinFlags s.cb pin))
        (s.sense pin)).portProcessed ++ rest
      = s.portProcessed ++ pin :: rest
    rw [ns_portProcessed]
    simp

theorem lpp_latch_persist (env : HandlerEnv) : ∀ (pins : List Nat) (s : Sys)
    (x : Nat), s.latch.testBit x = true →
    (latch_pins_process env pins s).latch.testBit x = true ∨ x ∈ pins := by
  intro pins
  induction pins with
  | nil => intro s x hx; exact Or.inl hx
  | cons pin rest ih =>
    intro s x hx
    by_cases hxp : x = pin
    · exact Or.inr (by simp [hxp])
    · unfold latch_pins_process
      have hs2 : ({ next_sense_cond_call_handler env
          { s with portProcessed := s.portProcessed ++ [pin] } pin
          (PIN_FLAG_TRIG_MODE_GET (pinFlags s.cb pin)) (s.sense pin) with
          latch := clearBit (next_sense_cond_call_handler env
            { s with portProcessed := s.portProcessed ++ [pin] } pin
            (PIN_FLAG_TRIG_MODE_GET (pinFlags s.cb pin))
            (s.sense pin)).latch pin } : Sys).latch.testBit x = true := by
        show (clearBit (next_sense_cond_call_handler env
          { s with portProcessed := s.portProcessed ++ [pin] } pin
          (PIN_FLAG_TRIG_MODE_GET (pinFlags s.cb pin))
          (s.sense pin)).latch pin).testBit x = true
        rw [testBit_clearBit, ns_latch]
        simp only [Nat.testBit_or, hx, Bool.true_or, Bool.true_and,
          Bool.not_eq_true]
        simp [hxp]
      rcases ih _ x hs2 with hl | hm
      · exact Or.inl hl
      · exact Or.inr (List.mem_cons_of_mem pin hm)

theorem lpp_inject_tracked (env : HandlerEnv) : ∀ (pins : List Nat) (s : Sys)
    (q t x : Nat),
    (q, t) ∈ (latch_pins_process env pins s).dispatches →
    (q, t) ∉ s.dispatches →
    (env.injectLatch q).testBit x = true →
    (latch_pins_process env pins s).latch.testBit x = true ∨ x ∈ pins := by
  intro pins
  induction pins with
  | nil =>
    intro s q t x hmem hnot _
    exact absurd hmem hnot
  | cons pin rest ih =>
    intro s q t x hmem hnot hinj
    unfold latch_pins_process at hmem ⊢
    by_cases hin2 : (q, t) ∈ ({ next_sense_cond_call_handler env
        { s with portProcessed := s.portProcessed ++ [pin] } pin
        (PIN_FLAG_TRIG_MODE_GET (pinFlags s.cb pin)) (s.sense pin) with
        latch := clearBit (next_sense_cond_call_handler env
          { s with portProcessed := s.portProcessed ++ [pin] } pin
          (PIN_FLAG_TRIG_MODE_GET (pinFlags s.cb pin))
          (s.sense pin)).latch pin } : Sys).dispatches
    · have hdisp : (q, t) ∈ s.dispatches ++
          (if dispatchCond (PIN_FLAG_TRIG_MODE_GET (pinFlags s.cb pin))
              (s.sense pin) then
            [(pin, PIN_FLAG_TRIG_MODE_GET (pinFlags s.cb pin))] else []) := by
        have h2 : (q, t) ∈ (next_sense_cond_call_handler env
            { s with portProcessed := s.portProcessed ++ [pin] } pin
            (PIN_FLAG_TRIG_MODE_GET (pinFlags s.cb pin))
            (s.sense pin)).dispatches := hin2
        rw [ns_dispatches] at h2
        exact h2
      rcases List.mem_append.mp hdisp with hold | hnew
      · exact absurd hold hnot
      · by_cases hd : dispatchCond (PIN_FLAG_TRIG_MODE_GET (pinFlags s.cb pin))
            (s.sense pin) = true
        · rw [if_pos hd] at hnew
          simp only [List.mem_singleton, Prod.mk.injEq] at hnew
          obtain ⟨hq, ht⟩ := hnew
          subst hq
          by_cases hxp : x = q
          · exact Or.inr (by simp [hxp])
          · have hbit : ({ next_sense_cond_call_handler env
                { s with portProcessed := s.portProcessed ++ [q] } q
                (PIN_FLAG_TRIG_MODE_GET (pinFlags s.cb q)) (s.sense q) with
                latch := clearBit (next_sense_cond_call_handler env
                  { s with portProcessed := s.portProcessed ++ [q] } q
                  (PIN_FLAG_TRIG_MODE_GET (pinFlags s.cb q))
                  (s.sense q)).latch q } : Sys).latch.testBit x = true := by
              show (clearBit (next_sense_cond_call_handler env
                { s with portProcessed := s.portProcessed ++ [q] } q
                (PIN_FLAG_TRIG_MODE_GET (pinFlags s.cb q))
                (s.sense q)).latch q).testBit x = true
              rw [testBit_clearBit, ns_latch, if_pos hd]
              simp only [Nat.testBit_or, hinj, Bool.or_true, Bool.true_and,
                Bool.not_eq_true]
              simp [hxp]
            rcases lpp_latch_persist env rest _ x hbit with hl | hm
            · exact Or.inl hl
            · exact Or.inr (List.mem_cons_of_mem q hm)
        · rw [if_neg hd] at hnew
          cases hnew
    · rcases ih _ q t x hmem hin2 hinj with hl | hm
      · exact Or.inl hl
      · exact Or.inr (List.mem_cons_of_mem pin hm)

theorem port_loop_latch_spec (env : HandlerEnv) : ∀ (fuel L : Nat) (s s' : Sys),
    (∀ q t x, (q, t) ∈ s.dispatches → (env.injectLatch q).testBit x = true →
      x ∈ s.portProcessed ∨ L.testBit x = true ∨ s.latch.testBit x = true) →
    port_loop_latch env fuel L s = some s' →
    s'.latch = 0 ∧
    (∀ p, L.testBit p = true → p ∈ s'.portProcessed) ∧
    (∀ p, s.latch.testBit p = true → p ∈ s'.portProcessed) ∧
    (∀ x, x ∈ s.portProcessed → x ∈ s'.portProcessed) ∧
    (∀ q t x, (q, t) ∈ s'.dispatches → (env.injectLatch q).testBit x = true →
      x ∈ s'.portProcessed) := by
  intro fuel
  induction fuel with
  | zero =>
    intro L s s' _ h
    cases h
  | succ fuel ih =>
    intro L s s' hinv h
    simp only [port_loop_latch] at h
    have hproc : (latch_pins_process env (natBits L) s).portProcessed
        = s.portProcessed ++ natBits L := lpp_processed env (natBits L) s
    by_cases hz : (latch_pins_process env (natBits L) s).latch = 0
    · rw [if_pos hz] at h
      have hs' : s' = latch_pins_process env (natBits L) s := (Option.some.inj h).symm
      subst hs'
      have hLmem : ∀ p, L.testBit p = true →
          p ∈ (latch_pins_process env (natBits L) s).portProcessed := by
        intro p hp
        rw [hproc]
        exact List.mem_append_right _ ((mem_natBits L p).mpr hp)
      have hOldLatch : ∀ p, s.latch.testBit p = true →
          p ∈ (latch_pins_process env (natBits L) s).portProcessed := by
        intro p hp
        rcases lpp_latch_persist env (natBits L) s p hp with hl | hm
        · rw [hz] at hl
          simp at hl
        · rw [hproc]
          exact List.mem_append_right _ hm
      have hMono : ∀ x, x ∈ s.portProcessed →
          x ∈ (latch_pins_process env (natBits L) s).portProcessed := by
        intro x hx
        rw [hproc]
        exact List.mem_append_left _ hx
      refine ⟨hz, hLmem, hOldLatch, hMono, ?_⟩
      intro q t x hq hx
      by_cases hold : (q, t) ∈ s.dispatches
      · rcases hinv q t x hold hx with hp | hp | hp
        · exact hMono x hp
        · exact hLmem x hp
        · exact hOldLatch x hp
      · rcases lpp_inject_tracked env (natBits L) s q t x hq hold hx with hl | hm
        · rw [hz] at hl
          simp at hl
        · rw [hproc]
          exact List.mem_append_right _ hm
    · rw [if_neg hz] at h
      have hinv2 : ∀ q t x,
          (q, t) ∈ ({ latch_pins_process env (natBits L) s with
            latch := 0 } : Sys).dispatches →
          (env.injectLatch q).testBit x = true →
          x ∈ ({ latch_pins_process env (natBits L) s with
              latch := 0 } : Sys).portProcessed ∨
          (latch_pins_process env (natBits L) s).latch.testBit x = true ∨
          ({ latch_pins_process env (natBits L) s with
              latch := 0 } : Sys).latch.testBit x = true := by
        intro q t x hq hx
        have hq2 : (q, t) ∈ (latch_pins_process env (natBits L) s).dispatches := hq
        by_cases hold : (q, t) ∈ s.dispatches
        · rcases hinv q t x hold hx with hp | hp | hp
          · exact Or.inl (by
              show x ∈ (latch_pins_process env (natBits L) s).portProcessed
              rw [hproc]
              exact List.mem_append_left _ hp)
          · exact Or.inl (by
              show x ∈ (latch_pins_process env (natBits L) s).portProcessed
              rw [hproc]
              exact List.mem_append_right _ ((mem_natBits L x).mpr hp))
          · rcases lpp_latch_persist env (natBits L) s x hp with hl | hm
            · exact Or.inr (Or.inl hl)
            · exact Or.inl (by
                show x ∈ (latch_pins_process env (natBits L) s).portProcessed
                rw [hproc]
                exact List.mem_append_right _ hm)
        · rcases lpp_inject_tracked env (natBits L) s q t x hq2 hold hx with hl | hm
          · exact Or.inr (Or.inl hl)
          · exact Or.inl (by
              show x ∈ (latch_pins_process env (natBits L) s).portProcessed
              rw [hproc]
              exact List.mem_append_right _ hm)
      obtain ⟨c1, c2, _, c4, c5⟩ := ih (latch_pins_process env (natBits L) s).latch
        ({ latch_pins_process env (natBits L) s with latch := 0 }) s' hinv2 h
      have hMono2 : ∀ x,
          x ∈ (latch_pins_process env (natBits L) s).portProcessed →
          x ∈ s'.portProcessed := fun x hx => c4 x hx
      refine ⟨c1, ?_, ?_, ?_, c5⟩
      · intro p hp
        apply hMono2
        rw [hproc]
        exact List.mem_append_right _ ((mem_natBits L p).mpr hp)
      · intro p hp
        rcases lpp_latch_persist env (natBits L) s p hp with hl | hm
        · exact c2 p hl
        · apply hMono2
          rw [hproc]
          exact List.mem_append_right _ hm
      · intro x hx
        apply hMono2
        rw [hproc]
        exact List.mem_append_left _ hx

theorem port_loop_nl_spec (env : HandlerEnv) : ∀ (fuel : Nat) (s : Sys)
    (input ptc : Nat) (r : NLResult),
    port_loop_nl env fuel s input ptc = some r →
    r.preSnapshot = r.sys.level ∧ r.pinsToCheck = 0 := by
  intro fuel
  induction fuel with
  | zero =>
    intro s input ptc r h
    cases h
  | succ fuel ih =>
    intro s input ptc r h
    simp only [port_loop_nl] at h
    by_cases hA : (input_read_and_check (sweep_pins env input (natBits ptc) s)
        (input_flip_trick
          (natBits (sweep_pins env input (natBits ptc) s).cb.port_pins)
          (sweep_pins env input (natBits ptc) s) input)
        (sweep_pins env input (natBits ptc) s).cb.port_pins).1 = true
    · rw [if_pos hA] at h
      exact ih _ _ _ _ h
    · rw [if_neg hA] at h
      have hr : r = ⟨sweep_pins env input (natBits ptc) s,
          input_flip_trick
            (natBits (sweep_pins env input (natBits ptc) s).cb.port_pins)
            (sweep_pins env input (natBits ptc) s) input,
          (input_read_and_check (sweep_pins env input (natBits ptc) s)
            (input_flip_trick
              (natBits (sweep_pins env input (natBits ptc) s).cb.port_pins)
              (sweep_pins env input (natBits ptc) s) input)
            (sweep_pins env input (natBits ptc) s).cb.port_pins).2.2.1,
          (input_read_and_check (sweep_pins env input (natBits ptc) s)
            (input_flip_trick
              (natBits (sweep_pins env input (natBits ptc) s).cb.port_pins)
              (sweep_pins env input (natBits ptc) s) input)
            (sweep_pins env input (natBits ptc) s).cb.port_pins).2.2.2⟩ :=
        (Option.some.inj h).symm
      subst hr
      by_cases hd : (input_flip_trick
          (natBits (sweep_pins env input (natBits ptc) s).cb.port_pins)
          (sweep_pins env input (natBits ptc) s) input)
          ^^^ (sweep_pins env input (natBits ptc) s).level ≠ 0
      · exfalso
        apply hA
        unfold input_read_and_check
        rw [if_pos hd]
      · have hd0 : (input_flip_trick
            (natBits (sweep_pins env input (natBits ptc) s).cb.port_pins)
            (sweep_pins env input (natBits ptc) s) input)
            ^^^ (sweep_pins env input (natBits ptc) s).level = 0 := by
          by_contra hc
          exact hd hc
        constructor
        · show input_flip_trick
              (natBits (sweep_pins env input (natBits ptc) s).cb.port_pins)
              (sweep_pins env input (natBits ptc) s) input
            = (sweep_pins env input (natBits ptc) s).level
          exact Nat.xor_eq_zero.mp hd0
        · show (input_read_and_check (sweep_pins env input (natBits ptc) s)
            (input_flip_trick
              (natBits (sweep_pins env input (natBits ptc) s).cb.port_pins)
              (sweep_pins env input (natBits ptc) s) input)
            (sweep_pins env input (natBits ptc) s).cb.port_pins).2.2.2 = 0
          unfold input_read_and_check
          rw [if_neg hd]

/-- C2: the shared-port interrupt resolution never returns while a
watched transition is pending.  Latch variant: when the loop returns,
the hardware latch register is empty, every pin latched at entry has
been processed through the resolution rule, and every latch bit
injected by a user callback during any dispatch of the run has been
processed as well before return.  Non-latch variant: the loop returns
only when the final live-level re-read equals the snapshot it is
compared against (no difference), with the to-check set emptied
(port_event_handle in both builds, nrfx_gpiote.c:977-1139). -/
theorem claim_C2_port_event_rescan (env : HandlerEnv) (fuel : Nat) (s : Sys) :
    (∀ s', s.portProcessed = [] → s.dispatches = [] →
      port_event_handle_latch env fuel s = some s' →
      s'.latch = 0 ∧
      (∀ p, s.latch.testBit p = true → p ∈ s'.portProcessed) ∧
      (∀ q t x, (q, t) ∈ s'.dispatches →
        (env.injectLatch q).testBit x = true → x ∈ s'.portProcessed)) ∧
    (∀ r, port_event_handle_nl env fuel s = some r →
      r.preSnapshot = r.sys.level ∧ r.pinsToCheck = 0) := by
  constructor
  · intro s' _ hdisp h
    have hinv : ∀ q t x,
        (q, t) ∈ ({ s with latch := 0 } : Sys).dispatches →
        (env.injectLatch q).testBit x = true →
        x ∈ ({ s with latch := 0 } : Sys).portProcessed ∨
        s.latch.testBit x = true ∨
        ({ s with latch := 0 } : Sys).latch.testBit x = true := by
      intro q t x hq _
      have hq2 : (q, t) ∈ s.dispatches := hq
      rw [hdisp] at hq2
      cases hq2
    have hspec := port_loop_latch_spec env fuel s.latch ({ s with latch := 0 }) s'
      hinv h
    exact ⟨hspec.1, hspec.2.1, hspec.2.2.2.2⟩
  · intro r h
    exact port_loop_nl_spec env fuel s s.level s.cb.port_pins r h

/-- Concrete latch-variant scenario: pin 0 latched at entry, all pins
armed watching for high, no dedicated channels. -/
def sysL : Sys :=
  ⟨⟨List.replicate 8 ⟨0, 0⟩, ⟨0, 0⟩, List.replicate 32 0, 255, 0⟩,
   fun _ => NRF_GPIO_PIN_SENSE_HIGH, 0, 1, [], [], [], []⟩

/-- Resolution result of the sysL scenario: pin 0 processed, its sense
flipped to watch-for-low, latch empty. -/
def sysLres : Sys :=
  ⟨⟨List.replicate 8 ⟨0, 0⟩, ⟨0, 0⟩, List.replicate 32 0, 255, 0⟩,
   fun q => if q = 0 then NRF_GPIO_PIN_SENSE_LOW else NRF_GPIO_PIN_SENSE_HIGH,
   0, 0, [], [], [0], [BackendOp.sense_set 0 NRF_GPIO_PIN_SENSE_LOW]⟩

theorem claim_C2_witness :
    port_event_handle_latch env0 2 sysL = some sysLres ∧
    sysLres.latch = 0 ∧ (0 ∈ sysLres.portProcessed) ∧
    port_event_handle_nl env0 1 sys0 = some ⟨sys0, 0, 0, 0⟩ ∧
    (0 : Nat) = sys0.level := by
  have hres : port_event_handle_latch env0 2 sysL = some sysLres := rfl
  have T := (claim_C2_port_event_rescan env0 2 sysL).1 sysLres rfl rfl hres
  have hnl : port_event_handle_nl env0 1 sys0 = some ⟨sys0, 0, 0, 0⟩ := rfl
  have T2 := (claim_C2_port_event_rescan env0 1 sys0).2 ⟨sys0, 0, 0, 0⟩ hnl
  exact ⟨hres, T.1, T.2.1 0 (by decide), hnl, T2.1⟩

end Gpiote
